import Mathlib

/-!
Shallow embedding of the trigger coordination subsystem of the
advanced-camera-card repository, centred on
`src/card-controller/triggers-manager.ts` (`TriggersManager`).

TypeScript string enums (`'new' | 'update' | 'end'`, trigger/untrigger action
names, interaction modes, view names) are embedded as `String`, matching the
source's string comparisons.  JavaScript `Set<string>` is embedded as a
duplicate-free `List String` (only membership and size are ever observed);
the JS `Map` holding per-camera state is an association list.  `Date` values
and timer durations/deadlines are `Nat` timestamps.  Downstream calls
(view-manager navigation, condition-state publication, card-element update,
timer starts/stops, throttled dispatch attempts) are recorded as an explicit
effect trace.  A fallible downstream view call is driven by an explicit
`viewCallThrows` flag, and fallible paths return `Except`, whose error carries
the store and trace at the point the exception propagated.
-/

/-- `CameraEvent` from `src/camera-manager/types.ts`: `cameraID`, source `id`,
`type : 'new' | 'update' | 'end'`, optional `fidelity : 'high' | 'low'`, and
optional `clip` / `snapshot` booleans. -/
structure CameraEvent where
  cameraID : String
  id : String
  type : String
  fidelity : Option String := none
  clip : Option Bool := none
  snapshot : Option Bool := none
deriving DecidableEq, Repr

/-- JavaScript truthiness of an optional boolean field (`undefined` and
`false` are both falsy). -/
def truthy (o : Option Bool) : Bool :=
  o.getD false

/-- `CameraTriggerState` from `triggers-manager.ts`: last trigger time, the
set of active trigger source IDs, and the optional delayed-untrigger timer.
The timer is embedded as its absolute firing deadline. -/
structure CameraTriggerState where
  lastTriggerTime : Nat
  sources : List String
  untriggerDelayTimer : Option Nat := none
deriving DecidableEq, Repr

/-- `TriggersManager._states : Map<string, CameraTriggerState>` as an
association list in insertion order. -/
abbrev StatesMap := List (String × CameraTriggerState)

/-- `Map.get`: the value stored at a key.  Keys are unique by construction
(all writes go through `mapSet`), so first-match lookup is exact. -/
def mapGet : StatesMap → String → Option CameraTriggerState
  | [], _ => none
  | p :: m, k => if p.1 = k then some p.2 else mapGet m k

/-- `Map.set`: replace in place when the key is present, otherwise append
(JS `Map` preserves insertion order). -/
def mapSet : StatesMap → String → CameraTriggerState → StatesMap
  | [], k, v => [(k, v)]
  | p :: m, k, v => if p.1 = k then (k, v) :: m else p :: mapSet m k v

/-- `Map.delete`: drop the entry stored at a key. -/
def mapDelete : StatesMap → String → StatesMap
  | [], _ => []
  | p :: m, k => if p.1 = k then mapDelete m k else p :: mapDelete m k

/-- `Set.add`: insert if not already present (JS sets are duplicate-free). -/
def setAdd (s : List String) (x : String) : List String :=
  if s.contains x then s else s ++ [x]

/-- `Set.delete`: remove an element. -/
def setDelete (s : List String) (x : String) : List String :=
  s.filter (fun y => y != x)

/-- One recorded downstream interaction of the coordinator: view-manager
navigation calls, condition-state publication, card-element update, timer
lifecycle, and dispatch attempts routed through the throttle wrapper. -/
inductive Effect where
  /-- `viewManager.setViewByParametersWithNewQuery({queryExecutorOptions:
  {useCache: false}})` (trigger action `update`). -/
  | refreshQuery : Effect
  /-- `viewManager.setViewByParametersWithNewQuery({params: {view: 'live',
  camera}})` (trigger action `live`). -/
  | setViewLive (cameraID : String) : Effect
  /-- `viewManager.setViewDefaultWithNewQuery({params: {camera}})` (trigger
  action `default`). -/
  | setViewDefaultCamera (cameraID : String) : Effect
  /-- `viewManager.setViewByParametersWithNewQuery({params: {view, camera}})`
  with `view` being `'clip'` or `'snapshot'` (trigger action `media`). -/
  | setViewMedia (cameraID : String) (view : String) : Effect
  /-- `viewManager.setViewDefaultWithNewQuery()` (untrigger action). -/
  | setViewDefault : Effect
  /-- `conditionStateManager.setState({triggered})`. -/
  | setConditionState (triggered : Option (List String)) : Effect
  /-- `cardElementManager.update()`. -/
  | cardUpdate : Effect
  /-- A call of `_throttledTriggerAction(ev)` (the dispatch attempt handed to
  the throttle wrapper). -/
  | throttledTrigger (ev : CameraEvent) : Effect
  /-- `Timer.start(seconds, ...)` for a camera's untrigger delay timer. -/
  | timerStart (cameraID : String) (seconds : Nat) : Effect
  /-- `Timer.stop()` for a camera's untrigger delay timer. -/
  | timerStop (cameraID : String) : Effect
deriving DecidableEq, Repr

/-- `config.view.triggers.actions` (`interaction_mode`, `trigger`,
`untrigger`), embedded as the schema's string enums. -/
structure TriggersActionsConfig where
  interaction_mode : String
  trigger : String
  untrigger : String
deriving DecidableEq, Repr

/-- `config.view.triggers` (`filter_selected_camera`, `untrigger_seconds`,
`actions`). -/
structure TriggersConfig where
  filter_selected_camera : Bool
  untrigger_seconds : Nat
  actions : TriggersActionsConfig
deriving DecidableEq, Repr

/-- The slice of the card configuration the coordinator reads:
`config.view.triggers` (optional) and `config.view.default`. -/
structure Config where
  view_triggers : Option TriggersConfig
  view_default : Option String
deriving DecidableEq, Repr

/-- The read-only collaborator snapshot behind `CardTriggersAPI`:
configuration, selected camera, camera dependencies, interaction state, the
configured cameras with their trigger entities, and the current Home
Assistant entity states together with the triggered-state classifier. -/
structure Env where
  /-- `configManager.getConfig()`. -/
  config : Option Config
  /-- `viewManager.getView()?.camera`. -/
  selectedCameraID : Option String
  /-- `cameraManager.getStore().getAllDependentCameras(cameraID)`. -/
  dependentCameras : String → List String
  /-- `interactionManager.hasInteraction()`. -/
  hasInteraction : Bool
  /-- `cameraManager.getStore().getCameras()`, each camera reduced to its
  `getConfig().triggers.entities`. -/
  cameras : List (String × List String)
  /-- `hass?.states[entityID]?.state`. -/
  hassState : String → Option String
  /-- `isTriggeredState` from `src/ha/is-triggered-state.ts`, kept abstract:
  whether an entity state string is in the triggered category. -/
  isTriggeredState : Option String → Bool

/-- `config?.view?.triggers`. -/
def Env.triggersConfig (env : Env) : Option TriggersConfig :=
  env.config.bind (·.view_triggers)

/-- `config?.view?.default`. -/
def Env.defaultView (env : Env) : Option String :=
  env.config.bind (·.view_default)

/-- `TriggersManager._isStateTriggered`: non-empty source set or a pending
untrigger delay timer. -/
def isStateTriggered (state : CameraTriggerState) : Bool :=
  !(state.sources.length == 0 && state.untriggerDelayTimer.isNone)

/-- `TriggersManager.getTriggeredCameraIDs`: the IDs of all stored states
that are triggered, in store iteration order. -/
def getTriggeredCameraIDs (states : StatesMap) : List String :=
  (states.filter (fun p => isStateTriggered p.2)).map (·.1)

/-- `TriggersManager.isTriggered`: some stored state is triggered. -/
def isTriggered (states : StatesMap) : Bool :=
  states.any (fun p => isStateTriggered p.2)

/-- `TriggersManager._setConditionStateIfNecessary`: publish the triggered
set, or `undefined` when it is empty. -/
def setConditionStateEffect (states : StatesMap) : Effect :=
  let triggeredCameraIDs := getTriggeredCameraIDs states
  .setConditionState (if triggeredCameraIDs.length != 0 then some triggeredCameraIDs else none)

/-- `TriggersManager._hasAllowableInteractionStateForAction`: requires a
triggers configuration, then applies the interaction-mode policy to the
current interaction state. -/
def hasAllowableInteractionStateForAction (env : Env) : Bool :=
  match env.triggersConfig with
  | none => false
  | some triggersConfig =>
    triggersConfig.actions.interaction_mode == "all" ||
    (triggersConfig.actions.interaction_mode == "active" && env.hasInteraction) ||
    (triggersConfig.actions.interaction_mode == "inactive" && !env.hasInteraction)

/-- `TriggersManager._triggerAction` as its effect trace: high-fidelity
suppression first (early return produces no effects at all), then the
interaction gate guarding the configured navigation, then the unconditional
card-element update. -/
def triggerAction (env : Env) (ev : CameraEvent) : List Effect :=
  let trigger := (env.triggersConfig).map (·.actions.trigger)
  let defaultView := env.defaultView
  if ev.fidelity == some "high" && !(truthy ev.snapshot) && !(truthy ev.clip) &&
      !(trigger == some "live" || (trigger == some "default" && defaultView == some "live")) then
    []
  else
    (if hasAllowableInteractionStateForAction env then
      if trigger == some "update" then
        [.refreshQuery]
      else if trigger == some "live" then
        [.setViewLive ev.cameraID]
      else if trigger == some "default" then
        [.setViewDefaultCamera ev.cameraID]
      else if ev.fidelity == some "high" && trigger == some "media" then
        [.setViewMedia ev.cameraID (if truthy ev.clip then "clip" else "snapshot")]
      else
        []
    else []) ++ [.cardUpdate]

/-- `TriggersManager._executeUntriggerAction` as an effect trace.  The
configured untrigger action `'none'` (or an absent configuration) returns
without touching the view manager; otherwise, when the interaction gate
passes, `setViewDefaultWithNewQuery()` is called, and `viewCallThrows`
makes that downstream call throw. -/
def executeUntriggerAction (env : Env) (viewCallThrows : Bool) :
    Except (List Effect) (List Effect) :=
  match (env.triggersConfig).map (·.actions.untrigger) with
  | none => .ok []
  | some action =>
    if action == "none" then
      .ok []
    else if hasAllowableInteractionStateForAction env then
      if viewCallThrows then .error [.setViewDefault] else .ok [.setViewDefault]
    else
      .ok []

/-- `TriggersManager._deleteUntriggerDelayTimer`: stop and drop a camera's
pending untrigger delay timer, if any. -/
def deleteUntriggerDelayTimer (states : StatesMap) (cameraID : String) :
    StatesMap × List Effect :=
  match mapGet states cameraID with
  | some state =>
    if state.untriggerDelayTimer.isSome then
      (mapSet states cameraID { state with untriggerDelayTimer := none },
        [.timerStop cameraID])
    else
      (states, [])
  | none => (states, [])

/-- `TriggersManager._untriggerAction`: cancel the delay timer, execute the
untrigger action (which may throw), then delete the camera's state, publish
condition state and update the card element.  On a throw, the store and
trace at the point the exception propagated are returned as the error. -/
def untriggerAction (env : Env) (viewCallThrows : Bool) (states : StatesMap)
    (cameraID : String) : Except (StatesMap × List Effect) (StatesMap × List Effect) :=
  let del := deleteUntriggerDelayTimer states cameraID
  match executeUntriggerAction env viewCallThrows with
  | .error effs => .error (del.1, del.2 ++ effs)
  | .ok effs =>
    let states2 := mapDelete del.1 cameraID
    .ok (states2, del.2 ++ effs ++ [setConditionStateEffect states2, .cardUpdate])

/-- `TriggersManager._startUntrigger`: cancel any pending timer, then — for a
camera that still has state — either start a fresh untrigger delay timer
(grace seconds positive; deadline is `now + untriggerSeconds`) or run the
untrigger path immediately (grace zero). -/
def startUntrigger (env : Env) (now : Nat) (viewCallThrows : Bool)
    (states : StatesMap) (cameraID : String) :
    Except (StatesMap × List Effect) (StatesMap × List Effect) :=
  let del := deleteUntriggerDelayTimer states cameraID
  match mapGet del.1 cameraID with
  | none => .ok (del.1, del.2)
  | some state =>
    let untriggerSeconds := ((env.triggersConfig).map (·.untrigger_seconds)).getD 0
    if untriggerSeconds > 0 then
      .ok (mapSet del.1 cameraID
            { state with untriggerDelayTimer := some (now + untriggerSeconds) },
          del.2 ++ [.timerStart cameraID untriggerSeconds])
    else
      match untriggerAction env viewCallThrows del.1 cameraID with
      | .error p => .error (p.1, del.2 ++ p.2)
      | .ok p => .ok (p.1, del.2 ++ p.2)

/-- `TriggersManager.handleCameraEvent`: `end` events shrink the source set
and begin the untrigger transition when it empties, and are accepted
unconditionally; `new`/`update` events are rejected without mutation when
configuration or selected camera is missing or the camera filter excludes
the event's camera, and otherwise create/refresh the state, cancel any grace
timer, republish condition state and (unless `skipAction`) hand the event to
the throttled trigger action. -/
def handleCameraEvent (env : Env) (now : Nat) (viewCallThrows : Bool)
    (states : StatesMap) (ev : CameraEvent) (skipAction : Bool) :
    Except (StatesMap × List Effect) (Bool × StatesMap × List Effect) :=
  if ev.type == "end" then
    let states1 :=
      match mapGet states ev.cameraID with
      | some state => mapSet states ev.cameraID
          { state with sources := setDelete state.sources ev.id }
      | none => states
    let sourcesEmpty :=
      match mapGet states1 ev.cameraID with
      | some state => state.sources.length == 0
      | none => true
    if sourcesEmpty then
      match startUntrigger env now viewCallThrows states1 ev.cameraID with
      | .error p => .error p
      | .ok p => .ok (true, p.1, p.2)
    else
      .ok (true, states1, [])
  else
    match env.triggersConfig, env.selectedCameraID with
    | some triggersConfig, some selectedCameraID =>
      let dependentCameraIDs := env.dependentCameras selectedCameraID
      if triggersConfig.filter_selected_camera && !(dependentCameraIDs.contains ev.cameraID) then
        .ok (false, states, [])
      else
        let state :=
          match mapGet states ev.cameraID with
          | none => { lastTriggerTime := now, sources := [] : CameraTriggerState }
          | some state => { state with lastTriggerTime := now }
        let state1 := { state with sources := setAdd state.sources ev.id }
        let states1 := mapSet states ev.cameraID state1
        let del := deleteUntriggerDelayTimer states1 ev.cameraID
        let effs := del.2 ++ [setConditionStateEffect del.1] ++
          (if skipAction then [] else [.throttledTrigger ev])
        .ok (true, del.1, effs)
    | _, _ => .ok (false, states, [])

/-- The untrigger delay timer of one camera firing: only possible while the
camera's state holds a pending timer, and then it runs `_untriggerAction`. -/
def fireUntriggerTimer (env : Env) (viewCallThrows : Bool) (states : StatesMap)
    (cameraID : String) :
    Option (Except (StatesMap × List Effect) (StatesMap × List Effect)) :=
  match (mapGet states cameraID).bind (·.untriggerDelayTimer) with
  | some _ => some (untriggerAction env viewCallThrows states cameraID)
  | none => none

/-- Accumulator of `handleInitialCameraTriggers`'s scan: the `triggered`
result flag, the first accepted synthesized event (`startupActionEvent`),
and the evolving store and effect trace. -/
structure InitAcc where
  triggered : Bool
  startupActionEvent : Option CameraEvent
  states : StatesMap
  effects : List Effect
deriving Repr

/-- One iteration of `handleInitialCameraTriggers`'s nested loop, for one
`(cameraID, entityID)` pair: when the entity's current state is in the
triggered category, synthesize a `new` event, feed it through
`handleCameraEvent` with `skipAction`, and keep the first accepted event. -/
def initialTriggerStep (env : Env) (now : Nat) (acc : InitAcc)
    (cameraID entityID : String) :
    Except (StatesMap × List Effect) InitAcc :=
  if env.isTriggeredState (env.hassState entityID) then
    let ev : CameraEvent := { cameraID := cameraID, id := entityID, type := "new" }
    match handleCameraEvent env now false acc.states ev true with
    | .error p => .error p
    | .ok (accepted, states1, effs) =>
      .ok { triggered := true,
            startupActionEvent :=
              if accepted then
                match acc.startupActionEvent with
                | some prior => some prior
                | none => some ev
              else acc.startupActionEvent,
            states := states1,
            effects := acc.effects ++ effs }
  else
    .ok acc

/-- The `(cameraID, entityID)` pairs `handleInitialCameraTriggers` visits, in
enumeration order: every configured camera, then each of its
`triggers.entities`. -/
def cameraEntityPairs (cameras : List (String × List String)) :
    List (String × String) :=
  (cameras.map (fun c => c.2.map (fun e => (c.1, e)))).flatten

/-- `TriggersManager.handleInitialCameraTriggers`: scan every configured
camera's trigger entities, feed a synthesized `new` event through
`handleCameraEvent` (with `skipAction`) for each entity already in a
triggered state, and afterwards hand the first accepted event — if any — to
the throttled trigger action.  Returns whether any entity was found
triggered. -/
def handleInitialCameraTriggers (env : Env) (now : Nat) (states : StatesMap) :
    Except (StatesMap × List Effect) (Bool × StatesMap × List Effect) :=
  match (cameraEntityPairs env.cameras).foldlM
      (fun acc p => initialTriggerStep env now acc p.1 p.2)
      { triggered := false, startupActionEvent := none,
        states := states, effects := [] : InitAcc } with
  | .error p => .error p
  | .ok acc =>
    .ok (acc.triggered, acc.states,
      acc.effects ++
        (match acc.startupActionEvent with
         | some ev => [.throttledTrigger ev]
         | none => []))

/-!
The throttle wrapper.  `TriggersManager._throttledTriggerAction` is
`throttle(this._triggerAction.bind(this), 1000, { trailing: true })` from
lodash.  lodash's `throttle(func, wait, options)` is `debounce` with
`maxWait = wait`, `leading` defaulting to `true` when not supplied, and
`trailing` as supplied; the state machine below embeds that documented
semantics for this configuration (leading and trailing both enabled,
`maxWait = wait`), specialised to monotone call times.  Timers are embedded
as absolute deadlines; `throttleTimerExpired` is the scheduled timer
callback running at its deadline.
-/

/-- The mutable state of one lodash throttle wrapper: time of the last call,
time of the last actual invocation of the wrapped function (lodash
initialises it to 0), the pending timer's deadline, and the stored
trailing-call arguments. -/
structure ThrottleState where
  lastCallTime : Option Nat
  lastInvokeTime : Nat
  timerDeadline : Option Nat
  lastArgs : Option CameraEvent
deriving DecidableEq, Repr

/-- A freshly constructed throttle wrapper. -/
def freshThrottle : ThrottleState :=
  { lastCallTime := none, lastInvokeTime := 0,
    timerDeadline := none, lastArgs := none }

/-- lodash `shouldInvoke`: first ever call, or a full window has elapsed
since the last call, or (`maxWait = wait`) since the last invocation. -/
def shouldInvoke (wait : Nat) (ts : ThrottleState) (time : Nat) : Bool :=
  match ts.lastCallTime with
  | none => true
  | some lastCall => lastCall + wait ≤ time || ts.lastInvokeTime + wait ≤ time

/-- Calling the throttled function at `time` with `args`: record the call;
on the leading edge (or a `maxWait` overrun) invoke immediately and
(re)arm the timer, otherwise arm the timer if none is pending and just
store the arguments for the trailing edge.  Returns the new state and the
argument the wrapped function was synchronously invoked with, if any. -/
def throttledCall (wait : Nat) (ts : ThrottleState) (time : Nat)
    (args : CameraEvent) : ThrottleState × Option CameraEvent :=
  let invoking := shouldInvoke wait ts time
  let ts1 := { ts with lastArgs := some args, lastCallTime := some time }
  if invoking then
    ({ ts1 with timerDeadline := some (time + wait),
                lastInvokeTime := time, lastArgs := none }, some args)
  else if ts1.timerDeadline.isNone then
    ({ ts1 with timerDeadline := some (time + wait) }, none)
  else
    (ts1, none)

/-- The throttle's timer callback running at `time`: on the trailing edge,
invoke the wrapped function with the stored arguments (when any call arrived
since the leading invocation), else re-arm for the remaining wait. -/
def throttleTimerExpired (wait : Nat) (ts : ThrottleState) (time : Nat) :
    ThrottleState × Option CameraEvent :=
  if shouldInvoke wait ts time then
    match ts.lastArgs with
    | some args =>
      ({ ts with timerDeadline := none, lastInvokeTime := time,
                 lastArgs := none }, some args)
    | none => ({ ts with timerDeadline := none }, none)
  else
    let timeWaiting := (ts.lastCallTime.getD time) + wait - time
    let maxLeft := ts.lastInvokeTime + wait - time
    ({ ts with timerDeadline := some (time + min timeWaiting maxLeft) }, none)

/-- Run a burst of calls (time/argument pairs) through a fresh throttle
wrapper and then let any still-pending timer expire at its deadline,
collecting every argument the wrapped function was actually invoked with,
in invocation order. -/
def runThrottleBurst (wait : Nat) (calls : List (Nat × CameraEvent)) :
    List CameraEvent :=
  let step := fun (acc : ThrottleState × List CameraEvent) (c : Nat × CameraEvent) =>
    let r := throttledCall wait acc.1 c.1 c.2
    (r.1, acc.2 ++ r.2.toList)
  let run := calls.foldl step (freshThrottle, [])
  match run.1.timerDeadline with
  | some deadline =>
    let r := throttleTimerExpired wait run.1 deadline
    run.2 ++ r.2.toList
  | none => run.2

/-- The throttle window `TriggersManager` constructs its wrapper with
(milliseconds). -/
def triggerThrottleWait : Nat := 1000

/-! Basic lemmas about the embedded `Map` and `Set` operations. -/

theorem mapGet_mapSet_self (m : StatesMap) (k : String) (v : CameraTriggerState) :
    mapGet (mapSet m k v) k = some v := by
  induction m with
  | nil => simp [mapGet, mapSet]
  | cons p m ih =>
    by_cases hp : p.1 = k
    · simp [mapGet, mapSet, hp]
    · simp [mapGet, mapSet, hp, ih]

theorem mapGet_mapSet_ne (m : StatesMap) (k k' : String) (v : CameraTriggerState)
    (h : k' ≠ k) : mapGet (mapSet m k v) k' = mapGet m k' := by
  have hk : k ≠ k' := Ne.symm h
  induction m with
  | nil => simp [mapGet, mapSet, hk]
  | cons p m ih =>
    by_cases hp : p.1 = k
    · simp [mapGet, mapSet, hp, hk]
    · by_cases hp' : p.1 = k'
      · rw [show mapSet (p :: m) k v = p :: mapSet m k v by simp [mapSet, hp]]
        simp [mapGet, hp']
      · simp [mapGet, mapSet, hp, hp', ih]

theorem mapSet_mem (m : StatesMap) (k : String) (v : CameraTriggerState)
    (p : String × CameraTriggerState) (hp : p ∈ mapSet m k v) :
    p = (k, v) ∨ p ∈ m := by
  induction m with
  | nil => simp [mapSet] at hp; simp [hp]
  | cons q m ih =>
    by_cases hq : q.1 = k
    · simp only [mapSet, hq, if_true, List.mem_cons] at hp
      rcases hp with hp | hp
      · exact Or.inl hp
      · exact Or.inr (List.mem_cons_of_mem _ hp)
    · simp only [mapSet, hq, if_false, List.mem_cons] at hp
      rcases hp with hp | hp
      · exact Or.inr (hp ▸ List.mem_cons_self _ _)
      · rcases ih hp with h1 | h1
        · exact Or.inl h1
        · exact Or.inr (List.mem_cons_of_mem _ h1)

/-- The store's keys are pairwise distinct; true of every reachable store
since all writes go through `mapSet`. -/
def nodupKeys (m : StatesMap) : Prop :=
  (m.map Prod.fst).Nodup

theorem mapSet_mem_nodup (m : StatesMap) (k : String) (v : CameraTriggerState)
    (hnd : nodupKeys m)
    (p : String × CameraTriggerState) (hp : p ∈ mapSet m k v) :
    p = (k, v) ∨ (p ∈ m ∧ p.1 ≠ k) := by
  induction m with
  | nil => simp [mapSet] at hp; simp [hp]
  | cons q m ih =>
    have hnd' : nodupKeys m := by
      simpa [nodupKeys] using (List.nodup_cons.mp hnd).2
    by_cases hq : q.1 = k
    · simp only [mapSet, hq, if_true, List.mem_cons] at hp
      rcases hp with hp | hp
      · exact Or.inl hp
      · refine Or.inr ⟨List.mem_cons_of_mem _ hp, ?_⟩
        have hqnot : q.1 ∉ m.map Prod.fst := (List.nodup_cons.mp hnd).1
        intro hpk
        exact hqnot (by
          rw [hq, ← hpk]
          exact List.mem_map_of_mem Prod.fst hp)
    · simp only [mapSet, hq, if_false, List.mem_cons] at hp
      rcases hp with hp | hp
      · exact Or.inr ⟨hp ▸ List.mem_cons_self _ _, hp ▸ hq⟩
      · rcases ih hnd' hp with h1 | ⟨h1, h2⟩
        · exact Or.inl h1
        · exact Or.inr ⟨List.mem_cons_of_mem _ h1, h2⟩

theorem mapDelete_mem (m : StatesMap) (k : String)
    (p : String × CameraTriggerState) (hp : p ∈ mapDelete m k) :
    p ∈ m ∧ p.1 ≠ k := by
  induction m with
  | nil => simp [mapDelete] at hp
  | cons q m ih =>
    by_cases hq : q.1 = k
    · simp only [mapDelete, hq, if_true] at hp
      obtain ⟨h1, h2⟩ := ih hp
      exact ⟨List.mem_cons_of_mem _ h1, h2⟩
    · simp only [mapDelete, hq, if_false, List.mem_cons] at hp
      rcases hp with hp | hp
      · exact ⟨hp ▸ List.mem_cons_self _ _, hp ▸ hq⟩
      · obtain ⟨h1, h2⟩ := ih hp
        exact ⟨List.mem_cons_of_mem _ h1, h2⟩

theorem mapGet_mem (m : StatesMap) (k : String) (st : CameraTriggerState)
    (h : mapGet m k = some st) : (k, st) ∈ m := by
  induction m with
  | nil => simp [mapGet] at h
  | cons p m ih =>
    by_cases hp : p.1 = k
    · simp only [mapGet, hp, if_true, Option.some_inj] at h
      have : p = (k, st) := by
        cases p; simp_all
      exact this ▸ List.mem_cons_self _ _
    · simp only [mapGet, hp, if_false] at h
      exact List.mem_cons_of_mem _ (ih h)

theorem mem_mapGet_isSome (m : StatesMap) (k : String)
    (st : CameraTriggerState) (h : (k, st) ∈ m) :
    ∃ st', mapGet m k = some st' := by
  induction m with
  | nil => simp at h
  | cons p m ih =>
    rcases List.mem_cons.mp h with h1 | h1
    · exact ⟨st, by simp [mapGet, ← h1]⟩
    · by_cases hp : p.1 = k
      · exact ⟨p.2, by simp [mapGet, hp]⟩
      · obtain ⟨st', hst'⟩ := ih h1
        exact ⟨st', by simp [mapGet, hp, hst']⟩

theorem mapGet_none_iff (m : StatesMap) (k : String) :
    mapGet m k = none ↔ ∀ p ∈ m, p.1 ≠ k := by
  induction m with
  | nil => simp [mapGet]
  | cons p m ih =>
    by_cases hp : p.1 = k
    · constructor
      · intro h
        simp [mapGet, hp] at h
      · intro h
        exact absurd hp (h p (List.mem_cons_self _ _))
    · simp only [mapGet, hp, if_false, ih, List.mem_cons]
      constructor
      · intro h q hq
        rcases hq with hq | hq
        · exact hq ▸ hp
        · exact h q hq
      · intro h q hq
        exact h q (Or.inr hq)

theorem mapSet_mapSet (m : StatesMap) (k : String) (v w : CameraTriggerState) :
    mapSet (mapSet m k v) k w = mapSet m k w := by
  induction m with
  | nil => simp [mapSet]
  | cons p m ih =>
    by_cases hp : p.1 = k
    · simp [mapSet, hp]
    · simp [mapSet, hp, ih]

theorem mapDelete_mapSet_self (m : StatesMap) (k : String) (v : CameraTriggerState) :
    mapDelete (mapSet m k v) k = mapDelete m k := by
  induction m with
  | nil => simp [mapSet, mapDelete]
  | cons p m ih =>
    by_cases hp : p.1 = k
    · simp [mapSet, mapDelete, hp]
    · simp [mapSet, mapDelete, hp, ih]

theorem mem_getTriggeredCameraIDs (m : StatesMap) (id : String) :
    id ∈ getTriggeredCameraIDs m ↔
      ∃ p ∈ m, p.1 = id ∧ isStateTriggered p.2 = true := by
  unfold getTriggeredCameraIDs
  rw [List.mem_map]
  constructor
  · rintro ⟨p, hp, hid⟩
    rw [List.mem_filter] at hp
    exact ⟨p, hp.1, hid, hp.2⟩
  · rintro ⟨p, hp, hid, htrig⟩
    exact ⟨p, List.mem_filter.mpr ⟨hp, htrig⟩, hid⟩

/-- The spec's no-tombstone store invariant: every stored entry is triggered
(non-empty `sources` or a pending untrigger timer). -/
def storeInv (m : StatesMap) : Prop :=
  ∀ p ∈ m, isStateTriggered p.2 = true

theorem mapSet_mem_ne (m : StatesMap) (k : String) (v : CameraTriggerState)
    (p : String × CameraTriggerState) (hp : p ∈ mapSet m k v) (hne : p.1 ≠ k) :
    p ∈ m := by
  rcases mapSet_mem m k v p hp with h | h
  · exact absurd (by rw [h]) hne
  · exact h

theorem keys_mapSet_mem (m : StatesMap) (k : String) (v : CameraTriggerState)
    (x : String) (hx : x ∈ (mapSet m k v).map Prod.fst) :
    x ∈ m.map Prod.fst ∨ x = k := by
  rw [List.mem_map] at hx
  obtain ⟨p, hp, hpx⟩ := hx
  rcases mapSet_mem m k v p hp with h | h
  · right; rw [← hpx, h]
  · left; rw [← hpx]; exact List.mem_map_of_mem Prod.fst h

theorem nodupKeys_mapSet (m : StatesMap) (k : String) (v : CameraTriggerState)
    (h : nodupKeys m) : nodupKeys (mapSet m k v) := by
  induction m with
  | nil => simp [mapSet, nodupKeys]
  | cons q m ih =>
    obtain ⟨hq1, hq2⟩ := List.nodup_cons.mp h
    by_cases hq : q.1 = k
    · rw [show mapSet (q :: m) k v = (k, v) :: m by simp [mapSet, hq]]
      simp only [nodupKeys, List.map_cons, List.nodup_cons]
      exact ⟨hq ▸ hq1, hq2⟩
    · rw [show mapSet (q :: m) k v = q :: mapSet m k v by simp [mapSet, hq]]
      simp only [nodupKeys, List.map_cons, List.nodup_cons]
      refine ⟨?_, ih hq2⟩
      intro hmem
      rcases keys_mapSet_mem m k v q.1 hmem with h1 | h1
      · exact hq1 h1
      · exact hq h1

theorem nodupKeys_mapDelete (m : StatesMap) (k : String)
    (h : nodupKeys m) : nodupKeys (mapDelete m k) := by
  induction m with
  | nil => simp [mapDelete, nodupKeys]
  | cons q m ih =>
    obtain ⟨hq1, hq2⟩ := List.nodup_cons.mp h
    by_cases hq : q.1 = k
    · rw [show mapDelete (q :: m) k = mapDelete m k by simp [mapDelete, hq]]
      exact ih hq2
    · rw [show mapDelete (q :: m) k = q :: mapDelete m k by simp [mapDelete, hq]]
      simp only [nodupKeys, List.map_cons, List.nodup_cons]
      refine ⟨?_, ih hq2⟩
      intro hmem
      rw [List.mem_map] at hmem
      obtain ⟨p, hp, hpx⟩ := hmem
      exact hq1 (by rw [← hpx]; exact List.mem_map_of_mem Prod.fst (mapDelete_mem m k p hp).1)

theorem setAdd_ne_nil (s : List String) (x : String) : setAdd s x ≠ [] := by
  unfold setAdd
  split
  · rename_i h
    intro hnil
    rw [hnil] at h
    simp at h
  · simp

/-- Case analysis of `_deleteUntriggerDelayTimer`: either a no-op or it
rewrites the entry with its timer stripped (recording a `Timer.stop`). -/
theorem deleteTimer_cases (m : StatesMap) (k : String) :
    (deleteUntriggerDelayTimer m k = (m, []) ∧
      ∀ st, mapGet m k = some st → st.untriggerDelayTimer = none) ∨
    (∃ st d, mapGet m k = some st ∧ st.untriggerDelayTimer = some d ∧
      deleteUntriggerDelayTimer m k =
        (mapSet m k { st with untriggerDelayTimer := none }, [.timerStop k])) := by
  unfold deleteUntriggerDelayTimer
  cases hget : mapGet m k with
  | none => left; simp [hget]
  | some st =>
    cases ht : st.untriggerDelayTimer with
    | none =>
      left
      refine ⟨by simp [hget, ht], ?_⟩
      intro st' hst'
      have hss : st = st' := Option.some_inj.mp hst'
      exact hss ▸ ht
    | some d =>
      right
      exact ⟨st, d, rfl, ht, by simp [ht]⟩

theorem executeUntriggerAction_false_ok (env : Env) :
    ∃ effs, executeUntriggerAction env false = .ok effs := by
  unfold executeUntriggerAction
  cases h : (env.triggersConfig).map (·.actions.untrigger) with
  | none => exact ⟨[], rfl⟩
  | some action =>
    by_cases ha : action == "none"
    · exact ⟨[], by simp [ha]⟩
    · by_cases hg : hasAllowableInteractionStateForAction env
      · exact ⟨[.setViewDefault], by simp [ha, hg]⟩
      · exact ⟨[], by simp [ha, hg]⟩

theorem mapDelete_deleteTimer (m : StatesMap) (k : String) :
    mapDelete (deleteUntriggerDelayTimer m k).1 k = mapDelete m k := by
  rcases deleteTimer_cases m k with ⟨heq, _⟩ | ⟨st, d, _, _, heq⟩
  · rw [heq]
  · rw [heq]
    exact mapDelete_mapSet_self m k _

/-- `config?.view?.triggers.untrigger_seconds ?? 0`. -/
def untriggerSecondsOf (env : Env) : Nat :=
  ((env.triggersConfig).map (·.untrigger_seconds)).getD 0

theorem untriggerAction_eq (env : Env) (vct : Bool) (m : StatesMap) (k : String) :
    untriggerAction env vct m k =
      match executeUntriggerAction env vct with
      | .error effs =>
        .error ((deleteUntriggerDelayTimer m k).1,
          (deleteUntriggerDelayTimer m k).2 ++ effs)
      | .ok effs =>
        .ok (mapDelete (deleteUntriggerDelayTimer m k).1 k,
          (deleteUntriggerDelayTimer m k).2 ++ effs ++
            [setConditionStateEffect (mapDelete (deleteUntriggerDelayTimer m k).1 k),
             .cardUpdate]) := by
  unfold untriggerAction
  rfl

theorem startUntrigger_eq (env : Env) (now : Nat) (vct : Bool) (m : StatesMap)
    (k : String) :
    startUntrigger env now vct m k =
      (match mapGet (deleteUntriggerDelayTimer m k).1 k with
       | none =>
         .ok ((deleteUntriggerDelayTimer m k).1, (deleteUntriggerDelayTimer m k).2)
       | some state =>
         if untriggerSecondsOf env > 0 then
           .ok (mapSet (deleteUntriggerDelayTimer m k).1 k
                 { state with untriggerDelayTimer := some (now + untriggerSecondsOf env) },
               (deleteUntriggerDelayTimer m k).2 ++ [.timerStart k (untriggerSecondsOf env)])
         else
           match untriggerAction env vct (deleteUntriggerDelayTimer m k).1 k with
           | .error p => .error (p.1, (deleteUntriggerDelayTimer m k).2 ++ p.2)
           | .ok p => .ok (p.1, (deleteUntriggerDelayTimer m k).2 ++ p.2)) := by
  unfold startUntrigger untriggerSecondsOf
  rfl

theorem untriggerAction_false_ok (env : Env) (m : StatesMap) (k : String) :
    ∃ effs, untriggerAction env false m k = .ok (mapDelete m k, effs) := by
  obtain ⟨effs0, hexec⟩ := executeUntriggerAction_false_ok env
  rw [untriggerAction_eq, hexec]
  rw [mapDelete_deleteTimer]
  exact ⟨_, rfl⟩

theorem startUntrigger_false_cases (env : Env) (now : Nat) (m : StatesMap)
    (k : String) :
    (mapGet m k = none ∧ startUntrigger env now false m k = .ok (m, [])) ∨
    (∃ st, mapGet m k = some st ∧ 0 < untriggerSecondsOf env ∧
      startUntrigger env now false m k = .ok
        (mapSet m k { st with untriggerDelayTimer := some (now + untriggerSecondsOf env) },
         (deleteUntriggerDelayTimer m k).2 ++ [.timerStart k (untriggerSecondsOf env)])) ∨
    (∃ st, mapGet m k = some st ∧ untriggerSecondsOf env = 0 ∧
      ∃ effs, startUntrigger env now false m k = .ok (mapDelete m k, effs)) := by
  rw [startUntrigger_eq]
  rcases deleteTimer_cases m k with ⟨heq, hnt⟩ | ⟨st, d, hget, ht, heq⟩
  · rw [heq]
    dsimp only
    cases hget : mapGet m k with
    | none =>
      left
      exact ⟨rfl, rfl⟩
    | some st =>
      right
      by_cases hsec : 0 < untriggerSecondsOf env
      · left
        refine ⟨st, rfl, hsec, ?_⟩
        dsimp only
        rw [if_pos hsec]
      · right
        refine ⟨st, rfl, Nat.le_zero.mp (Nat.not_lt.mp hsec), ?_⟩
        obtain ⟨effs, huntrig⟩ := untriggerAction_false_ok env m k
        dsimp only
        rw [if_neg hsec, huntrig]
        exact ⟨[] ++ effs, rfl⟩
  · rw [heq]
    dsimp only
    rw [mapGet_mapSet_self]
    right
    by_cases hsec : 0 < untriggerSecondsOf env
    · left
      refine ⟨st, hget, hsec, ?_⟩
      dsimp only
      rw [if_pos hsec, mapSet_mapSet]
    · right
      refine ⟨st, hget, Nat.le_zero.mp (Nat.not_lt.mp hsec), ?_⟩
      obtain ⟨effs, huntrig⟩ :=
        untriggerAction_false_ok env
          (mapSet m k { st with untriggerDelayTimer := none }) k
      dsimp only
      rw [if_neg hsec, huntrig, mapDelete_mapSet_self]
      exact ⟨_, rfl⟩

/-- The per-camera state an accepted `new`/`update` event writes: a lazily
created (or time-refreshed) state with the event's source ID added. -/
def refreshedState (m : StatesMap) (now : Nat) (ev : CameraEvent) : CameraTriggerState :=
  let state :=
    match mapGet m ev.cameraID with
    | none => { lastTriggerTime := now, sources := [] : CameraTriggerState }
    | some state => { state with lastTriggerTime := now }
  { state with sources := setAdd state.sources ev.id }

/-- The `end` branch's source-set update: remove the event's source ID from
the camera's state, when present. -/
def endUpdatedStates (m : StatesMap) (ev : CameraEvent) : StatesMap :=
  match mapGet m ev.cameraID with
  | some state => mapSet m ev.cameraID { state with sources := setDelete state.sources ev.id }
  | none => m

theorem handleCameraEvent_not_end_eq (env : Env) (now : Nat) (vct : Bool)
    (m : StatesMap) (ev : CameraEvent) (sk : Bool)
    (hne : (ev.type == "end") = false) :
    handleCameraEvent env now vct m ev sk =
      match env.triggersConfig, env.selectedCameraID with
      | some triggersConfig, some selectedCameraID =>
        if triggersConfig.filter_selected_camera &&
            !((env.dependentCameras selectedCameraID).contains ev.cameraID) then
          .ok (false, m, [])
        else
          .ok (true,
            (deleteUntriggerDelayTimer
              (mapSet m ev.cameraID (refreshedState m now ev)) ev.cameraID).1,
            (deleteUntriggerDelayTimer
              (mapSet m ev.cameraID (refreshedState m now ev)) ev.cameraID).2 ++
              [setConditionStateEffect (deleteUntriggerDelayTimer
                (mapSet m ev.cameraID (refreshedState m now ev)) ev.cameraID).1] ++
              (if sk then [] else [.throttledTrigger ev]))
      | _, _ => .ok (false, m, []) := by
  unfold handleCameraEvent refreshedState
  rw [if_neg (by simp [hne])]

theorem handleCameraEvent_end_eq (env : Env) (now : Nat) (vct : Bool)
    (m : StatesMap) (ev : CameraEvent) (sk : Bool)
    (he : (ev.type == "end") = true) :
    handleCameraEvent env now vct m ev sk =
      (if (match mapGet (endUpdatedStates m ev) ev.cameraID with
           | some state => state.sources.length == 0
           | none => true) then
         match startUntrigger env now vct (endUpdatedStates m ev) ev.cameraID with
         | .error p => .error p
         | .ok p => .ok (true, p.1, p.2)
       else .ok (true, endUpdatedStates m ev, [])) := by
  unfold handleCameraEvent endUpdatedStates
  rw [if_pos he]

theorem isStateTriggered_of_sources (s : CameraTriggerState) (h : s.sources ≠ []) :
    isStateTriggered s = true := by
  unfold isStateTriggered
  simp [h]

theorem isStateTriggered_of_timer (s : CameraTriggerState) (d : Nat)
    (h : s.untriggerDelayTimer = some d) : isStateTriggered s = true := by
  unfold isStateTriggered
  simp [h]

theorem startUntrigger_preserves (env : Env) (now : Nat) (m : StatesMap)
    (k : String) (m' : StatesMap) (effs : List Effect)
    (hnd : nodupKeys m)
    (hinv : ∀ p ∈ m, p.1 ≠ k → isStateTriggered p.2 = true)
    (h : startUntrigger env now false m k = .ok (m', effs)) :
    nodupKeys m' ∧ storeInv m' := by
  rcases startUntrigger_false_cases env now m k with
    ⟨hget, heq⟩ | ⟨st, hget, hsec, heq⟩ | ⟨st, hget, hsec, effs2, heq⟩
  · rw [heq] at h
    simp only [Except.ok.injEq, Prod.mk.injEq] at h
    obtain ⟨h1, _⟩ := h
    subst h1
    refine ⟨hnd, ?_⟩
    intro p hp
    exact hinv p hp ((mapGet_none_iff m k).mp hget p hp)
  · rw [heq] at h
    simp only [Except.ok.injEq, Prod.mk.injEq] at h
    obtain ⟨h1, _⟩ := h
    subst h1
    refine ⟨nodupKeys_mapSet m k _ hnd, ?_⟩
    intro p hp
    rcases mapSet_mem_nodup m k _ hnd p hp with h1 | ⟨h1, h2⟩
    · rw [h1]
      exact isStateTriggered_of_timer _ _ rfl
    · exact hinv p h1 h2
  · rw [heq] at h
    simp only [Except.ok.injEq, Prod.mk.injEq] at h
    obtain ⟨h1, _⟩ := h
    subst h1
    refine ⟨nodupKeys_mapDelete m k hnd, ?_⟩
    intro p hp
    obtain ⟨h1, h2⟩ := mapDelete_mem m k p hp
    exact hinv p h1 h2

theorem endUpdatedStates_nodup (m : StatesMap) (ev : CameraEvent)
    (hnd : nodupKeys m) : nodupKeys (endUpdatedStates m ev) := by
  unfold endUpdatedStates
  cases hget : mapGet m ev.cameraID with
  | none => exact hnd
  | some st => exact nodupKeys_mapSet m ev.cameraID _ hnd

theorem endUpdatedStates_side (m : StatesMap) (ev : CameraEvent)
    (hinv : storeInv m) :
    ∀ p ∈ endUpdatedStates m ev, p.1 ≠ ev.cameraID → isStateTriggered p.2 = true := by
  unfold endUpdatedStates
  cases hget : mapGet m ev.cameraID with
  | none => exact fun p hp _ => hinv p hp
  | some st =>
    intro p hp hne
    exact hinv p (mapSet_mem_ne m ev.cameraID _ p hp hne)

theorem handleCameraEvent_preserves (env : Env) (now : Nat) (m : StatesMap)
    (ev : CameraEvent) (sk : Bool) (b : Bool) (m' : StatesMap) (effs : List Effect)
    (hnd : nodupKeys m) (hinv : storeInv m)
    (h : handleCameraEvent env now false m ev sk = .ok (b, m', effs)) :
    nodupKeys m' ∧ storeInv m' := by
  by_cases he : (ev.type == "end") = true
  · rw [handleCameraEvent_end_eq env now false m ev sk he] at h
    split at h
    · cases hsu : startUntrigger env now false (endUpdatedStates m ev) ev.cameraID with
      | error p => rw [hsu] at h; simp at h
      | ok p =>
        rw [hsu] at h
        simp only [Except.ok.injEq, Prod.mk.injEq] at h
        obtain ⟨_, h1, _⟩ := h
        subst h1
        exact startUntrigger_preserves env now (endUpdatedStates m ev) ev.cameraID
          p.1 p.2 (endUpdatedStates_nodup m ev hnd) (endUpdatedStates_side m ev hinv)
          (by rw [hsu])
    · rename_i hcond
      simp only [Except.ok.injEq, Prod.mk.injEq] at h
      obtain ⟨_, h1, _⟩ := h
      subst h1
      refine ⟨endUpdatedStates_nodup m ev hnd, ?_⟩
      intro p hp
      by_cases hpk : p.1 = ev.cameraID
      · unfold endUpdatedStates at hp hcond
        cases hget : mapGet m ev.cameraID with
        | none =>
          rw [hget] at hcond
          simp [hget] at hcond
        | some st =>
          rw [hget] at hp hcond
          rcases mapSet_mem_nodup m ev.cameraID _ hnd p hp with h1 | ⟨_, h2⟩
          · rw [h1]
            apply isStateTriggered_of_sources
            have hg := mapGet_mapSet_self m ev.cameraID
              { st with sources := setDelete st.sources ev.id }
            rw [hg] at hcond
            simp only at hcond
            intro hnil
            apply hcond
            simp [show setDelete st.sources ev.id = [] from hnil]
          · exact absurd hpk h2
      · exact endUpdatedStates_side m ev hinv p hp hpk
  · rw [handleCameraEvent_not_end_eq env now false m ev sk (by simpa using he)] at h
    cases htc : env.triggersConfig with
    | none =>
      rw [htc] at h
      cases hsel : env.selectedCameraID with
      | none =>
        rw [hsel] at h
        dsimp only at h
        simp only [Except.ok.injEq, Prod.mk.injEq] at h
        obtain ⟨_, h1, _⟩ := h
        subst h1
        exact ⟨hnd, hinv⟩
      | some sel =>
        rw [hsel] at h
        dsimp only at h
        simp only [Except.ok.injEq, Prod.mk.injEq] at h
        obtain ⟨_, h1, _⟩ := h
        subst h1
        exact ⟨hnd, hinv⟩
    | some tc =>
      rw [htc] at h
      cases hsel : env.selectedCameraID with
      | none =>
        rw [hsel] at h
        dsimp only at h
        simp only [Except.ok.injEq, Prod.mk.injEq] at h
        obtain ⟨_, h1, _⟩ := h
        subst h1
        exact ⟨hnd, hinv⟩
      | some sel =>
        rw [hsel] at h
        dsimp only at h
        split at h
        · simp only [Except.ok.injEq, Prod.mk.injEq] at h
          obtain ⟨_, h1, _⟩ := h
          subst h1
          exact ⟨hnd, hinv⟩
        · simp only [Except.ok.injEq, Prod.mk.injEq] at h
          obtain ⟨_, h1, _⟩ := h
          subst h1
          have hsrc : (refreshedState m now ev).sources ≠ [] := by
            unfold refreshedState
            cases mapGet m ev.cameraID <;> dsimp only <;> exact setAdd_ne_nil _ _
          have hnd1 : nodupKeys (mapSet m ev.cameraID (refreshedState m now ev)) :=
            nodupKeys_mapSet m ev.cameraID _ hnd
          rcases deleteTimer_cases (mapSet m ev.cameraID (refreshedState m now ev))
              ev.cameraID with ⟨heq, _⟩ | ⟨st2, d2, hget2, ht2, heq2⟩
          · rw [heq]
            refine ⟨hnd1, ?_⟩
            intro p hp
            rcases mapSet_mem_nodup m ev.cameraID _ hnd p hp with h1 | ⟨h1, _⟩
            · rw [h1]
              exact isStateTriggered_of_sources _ hsrc
            · exact hinv p h1
          · rw [heq2]
            have hst2 : st2 = refreshedState m now ev := by
              have := mapGet_mapSet_self m ev.cameraID (refreshedState m now ev)
              rw [this] at hget2
              exact (Option.some_inj.mp hget2).symm
            refine ⟨nodupKeys_mapSet _ ev.cameraID _ hnd1, ?_⟩
            intro p hp
            rcases mapSet_mem_nodup _ ev.cameraID _ hnd1 p hp with h1 | ⟨h1, h2⟩
            · rw [h1]
              apply isStateTriggered_of_sources
              simp only [hst2]
              exact hsrc
            · rcases mapSet_mem_nodup m ev.cameraID _ hnd p h1 with h3 | ⟨h3, _⟩
              · rw [h3]
                exact isStateTriggered_of_sources _ hsrc
              · exact hinv p h3

/-- Recognizes a dispatch attempt handed to the throttle wrapper. -/
def isThrottledTriggerEffect : Effect → Bool
  | .throttledTrigger _ => true
  | _ => false

/-- Recognizes a view-manager navigation call. -/
def isViewManagerCall : Effect → Bool
  | .refreshQuery => true
  | .setViewLive _ => true
  | .setViewDefaultCamera _ => true
  | .setViewMedia _ _ => true
  | .setViewDefault => true
  | _ => false

/-- The `new` event `handleInitialCameraTriggers` synthesizes for a
`(cameraID, entityID)` pair. -/
def pairEvent (p : String × String) : CameraEvent :=
  { cameraID := p.1, id := p.2, type := "new" }

theorem handleCameraEvent_not_end_ok (env : Env) (now : Nat) (vct : Bool)
    (m : StatesMap) (ev : CameraEvent) (sk : Bool)
    (hne : (ev.type == "end") = false) :
    ∃ b m' effs, handleCameraEvent env now vct m ev sk = .ok (b, m', effs) := by
  rw [handleCameraEvent_not_end_eq env now vct m ev sk hne]
  cases htc : env.triggersConfig with
  | none =>
    cases hsel : env.selectedCameraID with
    | none => exact ⟨false, m, [], rfl⟩
    | some sel => exact ⟨false, m, [], rfl⟩
  | some tc =>
    cases hsel : env.selectedCameraID with
    | none => exact ⟨false, m, [], rfl⟩
    | some sel =>
      by_cases hfil : (tc.filter_selected_camera &&
          !((env.dependentCameras sel).contains ev.cameraID)) = true
      · exact ⟨false, m, [], by dsimp only; rw [if_pos hfil]⟩
      · exact ⟨true, _, _, by dsimp only; rw [if_neg hfil]⟩

theorem handleCameraEvent_rejected (env : Env) (now : Nat) (vct : Bool)
    (m : StatesMap) (ev : CameraEvent) (sk : Bool)
    (hne : (ev.type == "end") = false)
    (hrej : env.triggersConfig = none ∨ env.selectedCameraID = none) :
    handleCameraEvent env now vct m ev sk = .ok (false, m, []) := by
  rw [handleCameraEvent_not_end_eq env now vct m ev sk hne]
  rcases hrej with hrej | hrej
  · rw [hrej]
  · rw [hrej]
    cases env.triggersConfig <;> rfl

theorem handleCameraEvent_filtered (env : Env) (now : Nat) (vct : Bool)
    (m : StatesMap) (ev : CameraEvent) (sk : Bool) (tc : TriggersConfig) (sel : String)
    (hne : (ev.type == "end") = false)
    (htc : env.triggersConfig = some tc) (hsel : env.selectedCameraID = some sel)
    (hfil : (tc.filter_selected_camera &&
      !((env.dependentCameras sel).contains ev.cameraID)) = true) :
    handleCameraEvent env now vct m ev sk = .ok (false, m, []) := by
  rw [handleCameraEvent_not_end_eq env now vct m ev sk hne, htc, hsel]
  dsimp only
  rw [if_pos hfil]

theorem handleCameraEvent_accepted_facts (env : Env) (now : Nat) (m : StatesMap)
    (ev : CameraEvent) (sk : Bool) (tc : TriggersConfig) (sel : String)
    (hne : (ev.type == "end") = false)
    (htc : env.triggersConfig = some tc) (hsel : env.selectedCameraID = some sel)
    (hfil : (tc.filter_selected_camera &&
      !((env.dependentCameras sel).contains ev.cameraID)) = false) :
    ∃ m' effs, handleCameraEvent env now false m ev sk = .ok (true, m', effs) ∧
      (∃ st, mapGet m' ev.cameraID = some st ∧ st.sources ≠ []) ∧
      (∀ k, k ≠ ev.cameraID → mapGet m' k = mapGet m k) ∧
      effs.countP isThrottledTriggerEffect = (if sk then 0 else 1) := by
  rw [handleCameraEvent_not_end_eq env now false m ev sk hne, htc, hsel]
  dsimp only
  rw [if_neg (by intro hX; rw [hX] at hfil; simp at hfil)]
  have hsrc : (refreshedState m now ev).sources ≠ [] := by
    unfold refreshedState
    cases mapGet m ev.cameraID <;> dsimp only <;> exact setAdd_ne_nil _ _
  have hdel2 : ∀ eff ∈ (deleteUntriggerDelayTimer
      (mapSet m ev.cameraID (refreshedState m now ev)) ev.cameraID).2,
      isThrottledTriggerEffect eff = false := by
    rcases deleteTimer_cases (mapSet m ev.cameraID (refreshedState m now ev))
        ev.cameraID with ⟨heq, _⟩ | ⟨st2, d2, hget2, ht2, heq⟩ <;>
      rw [heq] <;> intro eff heff <;> simp at heff
    · rw [heff]
      rfl
  refine ⟨_, _, rfl, ?_, ?_, ?_⟩
  · rcases deleteTimer_cases (mapSet m ev.cameraID (refreshedState m now ev))
        ev.cameraID with ⟨heq, _⟩ | ⟨st2, d2, hget2, ht2, heq⟩
    · rw [heq]
      exact ⟨_, mapGet_mapSet_self m ev.cameraID _, hsrc⟩
    · rw [heq]
      have hst2 : st2 = refreshedState m now ev := by
        have hx := mapGet_mapSet_self m ev.cameraID (refreshedState m now ev)
        rw [hx] at hget2
        exact (Option.some_inj.mp hget2).symm
      refine ⟨_, mapGet_mapSet_self _ ev.cameraID _, ?_⟩
      simp only [hst2]
      exact hsrc
  · intro k hk
    rcases deleteTimer_cases (mapSet m ev.cameraID (refreshedState m now ev))
        ev.cameraID with ⟨heq, _⟩ | ⟨st2, d2, hget2, ht2, heq⟩
    · rw [heq]
      exact mapGet_mapSet_ne m ev.cameraID k _ hk
    · rw [heq]
      rw [mapGet_mapSet_ne _ ev.cameraID k _ hk]
      exact mapGet_mapSet_ne m ev.cameraID k _ hk
  · rw [List.countP_append, List.countP_append]
    have h1 : (deleteUntriggerDelayTimer
        (mapSet m ev.cameraID (refreshedState m now ev)) ev.cameraID).2.countP
          isThrottledTriggerEffect = 0 :=
      List.countP_eq_zero.mpr (by intro a ha; simpa using hdel2 a ha)
    rw [h1]
    cases sk <;> simp [isThrottledTriggerEffect, setConditionStateEffect]

theorem fireUntriggerTimer_preserves (env : Env) (m : StatesMap) (k : String)
    (m' : StatesMap) (effs : List Effect)
    (hnd : nodupKeys m) (hinv : storeInv m)
    (h : fireUntriggerTimer env false m k = some (.ok (m', effs))) :
    nodupKeys m' ∧ storeInv m' := by
  unfold fireUntriggerTimer at h
  cases hb : (mapGet m k).bind (·.untriggerDelayTimer) with
  | none => rw [hb] at h; simp at h
  | some d =>
    rw [hb] at h
    simp only [Option.some_inj] at h
    obtain ⟨effs2, hu⟩ := untriggerAction_false_ok env m k
    rw [hu] at h
    simp only [Except.ok.injEq, Prod.mk.injEq] at h
    obtain ⟨h1, _⟩ := h
    subst h1
    refine ⟨nodupKeys_mapDelete m k hnd, ?_⟩
    intro p hp
    exact hinv p (mapDelete_mem m k p hp).1

theorem initialTriggerStep_ok (env : Env) (now : Nat) (acc : InitAcc)
    (cid eid : String) :
    ∃ acc1, initialTriggerStep env now acc cid eid = .ok acc1 ∧
      acc1.triggered = (acc.triggered || env.isTriggeredState (env.hassState eid)) := by
  unfold initialTriggerStep
  cases hpred : env.isTriggeredState (env.hassState eid) with
  | false =>
    refine ⟨acc, by simp, by simp⟩
  | true =>
    obtain ⟨b, m', effs, heq⟩ := handleCameraEvent_not_end_ok env now false acc.states
      { cameraID := cid, id := eid, type := "new" } true (by rfl)
    rw [if_pos rfl]
    dsimp only
    rw [heq]
    exact ⟨_, rfl, by simp⟩

theorem initial_fold_triggered (env : Env) (now : Nat)
    (pairs : List (String × String)) (acc : InitAcc) :
    ∃ racc, pairs.foldlM (fun a p => initialTriggerStep env now a p.1 p.2) acc = .ok racc ∧
      racc.triggered =
        (acc.triggered || pairs.any (fun p => env.isTriggeredState (env.hassState p.2))) := by
  induction pairs generalizing acc with
  | nil => exact ⟨acc, rfl, by simp⟩
  | cons p ps ih =>
    obtain ⟨acc1, hstep, htrig⟩ := initialTriggerStep_ok env now acc p.1 p.2
    obtain ⟨racc, hfold, htrig2⟩ := ih acc1
    refine ⟨racc, ?_, ?_⟩
    · rw [List.foldlM_cons, hstep]
      simpa using hfold
    · rw [htrig2, htrig]
      simp [Bool.or_assoc]

theorem initial_fold_rejected (env : Env) (now : Nat)
    (hrej : env.triggersConfig = none ∨ env.selectedCameraID = none)
    (pairs : List (String × String)) (acc : InitAcc) :
    pairs.foldlM (fun a p => initialTriggerStep env now a p.1 p.2) acc =
      .ok { acc with triggered :=
        acc.triggered || pairs.any (fun p => env.isTriggeredState (env.hassState p.2)) } := by
  induction pairs generalizing acc with
  | nil =>
    simp only [List.foldlM_nil, List.any_nil, Bool.or_false]
    rfl
  | cons p ps ih =>
    rw [List.foldlM_cons]
    have hstep : initialTriggerStep env now acc p.1 p.2 =
        .ok { acc with triggered :=
          acc.triggered || env.isTriggeredState (env.hassState p.2) } := by
      unfold initialTriggerStep
      cases hpred : env.isTriggeredState (env.hassState p.2) with
      | false => simp
      | true =>
        rw [if_pos rfl]
        dsimp only
        rw [handleCameraEvent_rejected env now false acc.states
          { cameraID := p.1, id := p.2, type := "new" } true (by rfl) hrej]
        simp
    rw [hstep]
    have hrest := ih { acc with triggered :=
      acc.triggered || env.isTriggeredState (env.hassState p.2) }
    simpa [Bool.or_assoc] using hrest

theorem initial_fold_accept (env : Env) (now : Nat) (tc : TriggersConfig)
    (sel : String)
    (htc : env.triggersConfig = some tc) (hsel : env.selectedCameraID = some sel)
    (pairs : List (String × String))
    (hacc : ∀ p ∈ pairs, (tc.filter_selected_camera &&
      !((env.dependentCameras sel).contains p.1)) = false)
    (acc : InitAcc) :
    ∃ racc, pairs.foldlM (fun a p => initialTriggerStep env now a p.1 p.2) acc = .ok racc ∧
      racc.startupActionEvent = (match acc.startupActionEvent with
        | some e => some e
        | none => (pairs.find? (fun p => env.isTriggeredState (env.hassState p.2))).map pairEvent) ∧
      racc.effects.countP isThrottledTriggerEffect =
        acc.effects.countP isThrottledTriggerEffect ∧
      (∀ k, ((∃ p ∈ pairs, p.1 = k ∧ env.isTriggeredState (env.hassState p.2) = true) ∨
             (∃ st, mapGet acc.states k = some st ∧ st.sources ≠ [])) →
        ∃ st, mapGet racc.states k = some st ∧ st.sources ≠ []) := by
  induction pairs generalizing acc with
  | nil =>
    refine ⟨acc, rfl, ?_, rfl, ?_⟩
    · cases acc.startupActionEvent <;> rfl
    · intro k hk
      rcases hk with ⟨p, hp, _⟩ | hk
      · simp at hp
      · exact hk
  | cons p ps ih =>
    have haccp := hacc p (List.mem_cons_self _ _)
    have haccps : ∀ q ∈ ps, (tc.filter_selected_camera &&
        !((env.dependentCameras sel).contains q.1)) = false :=
      fun q hq => hacc q (List.mem_cons_of_mem _ hq)
    cases hpred : env.isTriggeredState (env.hassState p.2) with
    | false =>
      have hstep : initialTriggerStep env now acc p.1 p.2 = .ok acc := by
        unfold initialTriggerStep
        simp [hpred]
      obtain ⟨racc, hfold, hstart, hcount, hmark⟩ := ih haccps acc
      refine ⟨racc, ?_, ?_, hcount, ?_⟩
      · rw [List.foldlM_cons, hstep]
        simpa using hfold
      · rw [hstart]
        cases acc.startupActionEvent with
        | some e => rfl
        | none => simp [List.find?, hpred]
      · intro k hk
        apply hmark
        rcases hk with ⟨q, hq, hq1, hq2⟩ | hk
        · rcases List.mem_cons.mp hq with hq | hq
          · rw [hq] at hq2
            rw [hpred] at hq2
            cases hq2
          · exact Or.inl ⟨q, hq, hq1, hq2⟩
        · exact Or.inr hk
    | true =>
      obtain ⟨m', effs, heq, hat, hother, hcnt⟩ :=
        handleCameraEvent_accepted_facts env now acc.states (pairEvent p) true tc sel
          (by rfl) htc hsel (by simpa [pairEvent] using haccp)
      have hstep : initialTriggerStep env now acc p.1 p.2 =
          .ok { triggered := true,
                startupActionEvent :=
                  match acc.startupActionEvent with
                  | some prior => some prior
                  | none => some (pairEvent p),
                states := m',
                effects := acc.effects ++ effs } := by
        unfold initialTriggerStep
        rw [if_pos (by rw [hpred])]
        dsimp only
        rw [show ({ cameraID := p.1, id := p.2, type := "new" } : CameraEvent) =
          pairEvent p from rfl, heq]
        rfl
      obtain ⟨racc, hfold, hstart, hcount, hmark⟩ := ih haccps
        { triggered := true,
          startupActionEvent :=
            match acc.startupActionEvent with
            | some prior => some prior
            | none => some (pairEvent p),
          states := m',
          effects := acc.effects ++ effs }
      refine ⟨racc, ?_, ?_, ?_, ?_⟩
      · rw [List.foldlM_cons, hstep]
        simpa using hfold
      · rw [hstart]
        dsimp only
        cases acc.startupActionEvent with
        | some e => rfl
        | none => simp [List.find?, hpred]
      · rw [hcount]
        dsimp only
        rw [List.countP_append, hcnt]
        simp
      · intro k hk
        rcases hk with ⟨q, hq, hq1, hq2⟩ | ⟨st, hst, hsrc⟩
        · rcases List.mem_cons.mp hq with hq | hq
          · apply hmark
            right
            dsimp only
            rw [hq] at hq1
            rw [← hq1]
            exact hat
          · exact hmark k (Or.inl ⟨q, hq, hq1, hq2⟩)
        · apply hmark
          right
          dsimp only
          by_cases hkp : k = p.1
          · rw [hkp]
            exact hat
          · rw [hother k (by simpa [pairEvent] using hkp)]
            exact ⟨st, hst, hsrc⟩

theorem initialTriggerStep_preserves (env : Env) (now : Nat) (acc acc1 : InitAcc)
    (cid eid : String)
    (hnd : nodupKeys acc.states) (hinv : storeInv acc.states)
    (h : initialTriggerStep env now acc cid eid = .ok acc1) :
    nodupKeys acc1.states ∧ storeInv acc1.states := by
  unfold initialTriggerStep at h
  by_cases hpred : env.isTriggeredState (env.hassState eid) = true
  · rw [if_pos hpred] at h
    dsimp only at h
    cases hce : handleCameraEvent env now false acc.states
        { cameraID := cid, id := eid, type := "new" } true with
    | error p => rw [hce] at h; simp at h
    | ok r =>
      rw [hce] at h
      obtain ⟨b, m', effs⟩ := r
      simp only [Except.ok.injEq] at h
      subst h
      exact handleCameraEvent_preserves env now acc.states _ true b m' effs hnd hinv hce
  · rw [if_neg hpred] at h
    simp only [Except.ok.injEq] at h
    subst h
    exact ⟨hnd, hinv⟩

theorem initial_fold_preserves (env : Env) (now : Nat)
    (pairs : List (String × String)) (acc racc : InitAcc)
    (hnd : nodupKeys acc.states) (hinv : storeInv acc.states)
    (h : pairs.foldlM (fun a p => initialTriggerStep env now a p.1 p.2) acc = .ok racc) :
    nodupKeys racc.states ∧ storeInv racc.states := by
  induction pairs generalizing acc with
  | nil =>
    simp only [List.foldlM_nil] at h
    have hacc : acc = racc := Except.ok.inj h
    subst hacc
    exact ⟨hnd, hinv⟩
  | cons p ps ih =>
    rw [List.foldlM_cons] at h
    cases hstep : initialTriggerStep env now acc p.1 p.2 with
    | error q =>
      rw [hstep] at h
      exact Except.noConfusion h
    | ok acc1 =>
      rw [hstep] at h
      obtain ⟨hnd1, hinv1⟩ := initialTriggerStep_preserves env now acc acc1 p.1 p.2 hnd hinv hstep
      exact ih acc1 hnd1 hinv1 h

/-! Claim theorems. -/

/-- C4: for `new`/`update` events, `handleCameraEvent` returns `false` and
mutates nothing when there is no triggers configuration or no selected
camera, or when `filter_selected_camera` is on and the event's camera is
outside the selected camera's dependent set; an `end` event is always
accepted (returns `true`), and an `end` event for a camera with no stored
state is a silent no-op on the store. -/
theorem handleCameraEvent_filtering_rules (env : Env) (now : Nat)
    (states : StatesMap) (ev : CameraEvent) (sk : Bool) :
    (ev.type ≠ "end" → (env.triggersConfig = none ∨ env.selectedCameraID = none) →
      handleCameraEvent env now false states ev sk = .ok (false, states, [])) ∧
    (ev.type ≠ "end" → ∀ tc sel, env.triggersConfig = some tc →
      env.selectedCameraID = some sel → tc.filter_selected_camera = true →
      (env.dependentCameras sel).contains ev.cameraID = false →
      handleCameraEvent env now false states ev sk = .ok (false, states, [])) ∧
    (ev.type = "end" → ∃ s' effs,
      handleCameraEvent env now false states ev sk = .ok (true, s', effs)) ∧
    (ev.type = "end" → mapGet states ev.cameraID = none →
      handleCameraEvent env now false states ev sk = .ok (true, states, [])) := by
  refine ⟨?_, ?_, ?_, ?_⟩
  · intro hne hrej
    exact handleCameraEvent_rejected env now false states ev sk (by simp [hne]) hrej
  · intro hne tc sel htc hsel hf hdep
    exact handleCameraEvent_filtered env now false states ev sk tc sel
      (by simp [hne]) htc hsel (by rw [hf, hdep]; rfl)
  · intro he
    rw [handleCameraEvent_end_eq env now false states ev sk (by simp [he])]
    split
    · rcases startUntrigger_false_cases env now (endUpdatedStates states ev)
          ev.cameraID with ⟨_, hs⟩ | ⟨_, _, _, hs⟩ | ⟨_, _, _, _, hs⟩ <;>
        rw [hs] <;> exact ⟨_, _, rfl⟩
    · exact ⟨_, _, rfl⟩
  · intro he hnone
    rw [handleCameraEvent_end_eq env now false states ev sk (by simp [he])]
    have h1 : endUpdatedStates states ev = states := by
      unfold endUpdatedStates
      rw [hnone]
    rw [h1]
    rw [if_pos (by rw [hnone])]
    rcases startUntrigger_false_cases env now states ev.cameraID with
      ⟨_, hs⟩ | ⟨st, hget, _, _⟩ | ⟨st, hget, _, _⟩
    · rw [hs]
    · rw [hget] at hnone; cases hnone
    · rw [hget] at hnone; cases hnone

/-- C2: after every completed public operation (`handleCameraEvent`,
`handleInitialCameraTriggers`, grace-timer expiry) the store keeps the
no-tombstone invariant — every stored entry has a non-empty source set or a
pending untrigger timer — and a camera is reported triggered by
`getTriggeredCameraIDs` iff its stored state satisfies exactly that
condition. -/
theorem trigger_store_invariant (env : Env) (now : Nat) (m : StatesMap)
    (hnd : nodupKeys m) (hinv : storeInv m) :
    (∀ ev sk b m' effs, handleCameraEvent env now false m ev sk = .ok (b, m', effs) →
        nodupKeys m' ∧ storeInv m') ∧
    (∀ k m' effs, fireUntriggerTimer env false m k = some (.ok (m', effs)) →
        nodupKeys m' ∧ storeInv m') ∧
    (∀ b m' effs, handleInitialCameraTriggers env now m = .ok (b, m', effs) →
        nodupKeys m' ∧ storeInv m') ∧
    (∀ id, id ∈ getTriggeredCameraIDs m ↔
        ∃ st, mapGet m id = some st ∧ isStateTriggered st = true) := by
  refine ⟨?_, ?_, ?_, ?_⟩
  · intro ev sk b m' effs h
    exact handleCameraEvent_preserves env now m ev sk b m' effs hnd hinv h
  · intro k m' effs h
    exact fireUntriggerTimer_preserves env m k m' effs hnd hinv h
  · intro b m' effs h
    unfold handleInitialCameraTriggers at h
    cases hfold : (cameraEntityPairs env.cameras).foldlM
        (fun acc p => initialTriggerStep env now acc p.1 p.2)
        { triggered := false, startupActionEvent := none,
          states := m, effects := [] : InitAcc } with
    | error q => rw [hfold] at h; simp at h
    | ok racc =>
      rw [hfold] at h
      simp only [Except.ok.injEq, Prod.mk.injEq] at h
      obtain ⟨_, h1, _⟩ := h
      subst h1
      exact initial_fold_preserves env now (cameraEntityPairs env.cameras) _ racc
        hnd hinv hfold
  · intro id
    rw [mem_getTriggeredCameraIDs]
    constructor
    · rintro ⟨p, hp, hid, htrig⟩
      have hmem : (id, p.2) ∈ m := by
        rw [← hid]
        exact hp
      obtain ⟨st', hst'⟩ := mem_mapGet_isSome m id p.2 hmem
      exact ⟨st', hst', hinv _ (mapGet_mem m id st' hst')⟩
    · rintro ⟨st, hst, htrig⟩
      exact ⟨(id, st), mapGet_mem m id st hst, rfl, htrig⟩

theorem deleteTimer_no_timer (m : StatesMap) (k : String) (st : CameraTriggerState)
    (hget : mapGet m k = some st) (ht : st.untriggerDelayTimer = none) :
    deleteUntriggerDelayTimer m k = (m, []) := by
  unfold deleteUntriggerDelayTimer
  rw [hget]
  simp [ht]

theorem deleteTimer_with_timer (m : StatesMap) (k : String)
    (st : CameraTriggerState) (d : Nat)
    (hget : mapGet m k = some st) (ht : st.untriggerDelayTimer = some d) :
    deleteUntriggerDelayTimer m k =
      (mapSet m k { st with untriggerDelayTimer := none }, [.timerStop k]) := by
  unfold deleteUntriggerDelayTimer
  rw [hget]
  simp [ht]

theorem handleCameraEvent_accepted_eq (env : Env) (now : Nat) (vct : Bool)
    (m : StatesMap) (ev : CameraEvent) (sk : Bool) (tc : TriggersConfig) (sel : String)
    (hne : (ev.type == "end") = false)
    (htc : env.triggersConfig = some tc) (hsel : env.selectedCameraID = some sel)
    (hfil : (tc.filter_selected_camera &&
      !((env.dependentCameras sel).contains ev.cameraID)) = false) :
    handleCameraEvent env now vct m ev sk =
      .ok (true,
        (deleteUntriggerDelayTimer
          (mapSet m ev.cameraID (refreshedState m now ev)) ev.cameraID).1,
        (deleteUntriggerDelayTimer
          (mapSet m ev.cameraID (refreshedState m now ev)) ev.cameraID).2 ++
          [setConditionStateEffect (deleteUntriggerDelayTimer
            (mapSet m ev.cameraID (refreshedState m now ev)) ev.cameraID).1] ++
          (if sk then [] else [.throttledTrigger ev])) := by
  rw [handleCameraEvent_not_end_eq env now vct m ev sk hne, htc, hsel]
  dsimp only
  rw [if_neg (by intro hX; rw [hX] at hfil; simp at hfil)]

/-- Modelled from the spec: "Track only the *first* such synthesized event
that was accepted by the filtering logic" — under an environment whose
filtering accepts every camera, this is the first `(cameraID, entityID)`
pair, in enumeration order, whose entity state is in the triggered
category. -/
def specFirstTriggeredEntity (env : Env) : Option (String × String) :=
  (cameraEntityPairs env.cameras).find?
    (fun p => env.isTriggeredState (env.hassState p.2))

theorem mem_cameraEntityPairs (cams : List (String × List String))
    (q : String × List String) (e : String) (hq : q ∈ cams) (he : e ∈ q.2) :
    (q.1, e) ∈ cameraEntityPairs cams := by
  unfold cameraEntityPairs
  rw [List.mem_flatten]
  exact ⟨q.2.map (fun e => (q.1, e)), List.mem_map_of_mem _ hq,
    List.mem_map_of_mem _ he⟩

theorem pairs_any_eq (cams : List (String × List String)) (f : String → Bool) :
    (cameraEntityPairs cams).any (fun p => f p.2) =
      cams.any (fun q => q.2.any f) := by
  induction cams with
  | nil => rfl
  | cons q cs ih =>
    rw [show cameraEntityPairs (q :: cs) =
      q.2.map (fun e => (q.1, e)) ++ cameraEntityPairs cs by
        unfold cameraEntityPairs; simp]
    rw [List.any_append, List.any_cons, ih]
    congr 1
    induction q.2 with
    | nil => rfl
    | cons e es ih2 => simp only [List.map_cons, List.any_cons, ih2]

/-- C9: whenever the triggers configuration is absent, the interaction-state
gate evaluates to `false` regardless of interaction state, so neither the
trigger-action path nor the untrigger-action path performs any view-manager
call. -/
theorem absent_config_blocks_actions (env : Env)
    (hcfg : env.triggersConfig = none) :
    hasAllowableInteractionStateForAction env = false ∧
    (∀ ev, (triggerAction env ev).filter isViewManagerCall = []) ∧
    (∀ vct, executeUntriggerAction env vct = .ok []) := by
  have hgate : hasAllowableInteractionStateForAction env = false := by
    unfold hasAllowableInteractionStateForAction
    rw [hcfg]
  refine ⟨hgate, ?_, ?_⟩
  · intro ev
    unfold triggerAction
    rw [hcfg]
    dsimp only
    split
    · rfl
    · rw [hgate]
      rfl
  · intro vct
    unfold executeUntriggerAction
    rw [hcfg]
    rfl

/-- C6: for an event with fidelity `high` and neither clip nor snapshot
set, `_triggerAction` returns without doing anything at all unless the
configured trigger action is `live`, or `default` with default view `live`;
in particular with trigger action `media` nothing is dispatched, while with
trigger action `live` (and a passing interaction gate) a live-view
navigation is dispatched. -/
theorem high_fidelity_suppression (env : Env) (ev : CameraEvent)
    (hf : ev.fidelity = some "high") (hc : truthy ev.clip = false)
    (hs : truthy ev.snapshot = false) :
    ((env.triggersConfig).map (·.actions.trigger) ≠ some "live" →
      ¬((env.triggersConfig).map (·.actions.trigger) = some "default" ∧
        env.defaultView = some "live") →
      triggerAction env ev = []) ∧
    (∀ tc, env.triggersConfig = some tc → tc.actions.trigger = "media" →
      triggerAction env ev = []) ∧
    (∀ tc, env.triggersConfig = some tc → tc.actions.trigger = "live" →
      hasAllowableInteractionStateForAction env = true →
      triggerAction env ev = [.setViewLive ev.cameraID, .cardUpdate]) := by
  have hsupp : ∀ _ : (env.triggersConfig).map (·.actions.trigger) ≠ some "live",
      ∀ _ : ¬((env.triggersConfig).map (·.actions.trigger) = some "default" ∧
        env.defaultView = some "live"),
      triggerAction env ev = [] := by
    intro hlive hdef
    have h1 : ((env.triggersConfig).map (·.actions.trigger) == some "live") = false :=
      beq_eq_false_iff_ne.mpr hlive
    have h2 : (((env.triggersConfig).map (·.actions.trigger) == some "default") &&
        (env.defaultView == some "live")) = false := by
      by_cases hdt : (env.triggersConfig).map (·.actions.trigger) = some "default"
      · have hdv : env.defaultView ≠ some "live" := fun hv => hdef ⟨hdt, hv⟩
        rw [show (env.defaultView == some "live") = false from beq_eq_false_iff_ne.mpr hdv]
        simp
      · rw [show ((env.triggersConfig).map (·.actions.trigger) == some "default") = false from
          beq_eq_false_iff_ne.mpr hdt]
        simp
    simp [triggerAction, hf, hc, hs, h1, h2]
  refine ⟨hsupp, ?_, ?_⟩
  · intro tc htc hmedia
    apply hsupp <;> (intro hx; rw [htc] at hx; simp [hmedia] at hx)
  · intro tc htc hlive hgate
    have h1 : ((env.triggersConfig).map (·.actions.trigger)) = some "live" := by
      rw [htc]
      simp [hlive]
    simp [triggerAction, h1, hgate, hf, hc, hs]

/-- C10: `handleInitialCameraTriggers` returns `true` iff at least one
configured camera has a trigger entity whose current external state is in
the triggered category — regardless of whether any synthesized event was
accepted by the filtering logic; in particular with no selected camera the
returned flag can be `true` while the store is unchanged and no trigger
action is dispatched. -/
theorem handleInitialCameraTriggers_return_value (env : Env) (now : Nat)
    (states : StatesMap) :
    ∃ m' effs, handleInitialCameraTriggers env now states =
      .ok (env.cameras.any (fun q => q.2.any
            (fun e => env.isTriggeredState (env.hassState e))), m', effs) ∧
      (env.selectedCameraID = none → m' = states ∧ effs = []) := by
  unfold handleInitialCameraTriggers
  obtain ⟨racc, hfold, htrig⟩ := initial_fold_triggered env now
    (cameraEntityPairs env.cameras)
    { triggered := false, startupActionEvent := none, states := states, effects := [] }
  rw [hfold]
  have htrig2 : racc.triggered = env.cameras.any (fun q => q.2.any
      (fun e => env.isTriggeredState (env.hassState e))) := by
    rw [htrig]
    simp only [Bool.false_or]
    exact pairs_any_eq env.cameras (fun e => env.isTriggeredState (env.hassState e))
  refine ⟨racc.states,
    racc.effects ++ (match racc.startupActionEvent with
      | some ev => [.throttledTrigger ev]
      | none => []), ?_, ?_⟩
  · dsimp only
    rw [htrig2]
  · intro hsel
    have hrej := initial_fold_rejected env now (Or.inr hsel)
      (cameraEntityPairs env.cameras)
      { triggered := false, startupActionEvent := none, states := states, effects := [] }
    rw [hfold] at hrej
    have hracc := Except.ok.inj hrej
    rw [hracc]
    exact ⟨rfl, rfl⟩

/-- C5: with a triggers configuration, a selected camera, and filtering that
accepts every configured camera, `handleInitialCameraTriggers` marks every
camera that has an already-triggered entity as triggered in the store, and
the effect trace hands exactly one event to the throttled trigger action —
the first (in enumeration order) synthesized event whose entity is in the
triggered category; if there is none, no trigger dispatch is attempted. -/
theorem handleInitialCameraTriggers_single_dispatch (env : Env) (now : Nat)
    (states : StatesMap) (tc : TriggersConfig) (sel : String)
    (htc : env.triggersConfig = some tc) (hsel : env.selectedCameraID = some sel)
    (hacc : ∀ p ∈ cameraEntityPairs env.cameras,
      (tc.filter_selected_camera && !((env.dependentCameras sel).contains p.1)) = false) :
    ∃ b m' effs, handleInitialCameraTriggers env now states = .ok (b, m', effs) ∧
      (∀ q ∈ env.cameras,
        (∃ e ∈ q.2, env.isTriggeredState (env.hassState e) = true) →
        q.1 ∈ getTriggeredCameraIDs m') ∧
      effs.filter isThrottledTriggerEffect =
        (match specFirstTriggeredEntity env with
         | some p => [Effect.throttledTrigger (pairEvent p)]
         | none => []) := by
  unfold handleInitialCameraTriggers
  obtain ⟨racc, hfold, hstart, hcount, hmark⟩ := initial_fold_accept env now tc sel
    htc hsel (cameraEntityPairs env.cameras) hacc
    { triggered := false, startupActionEvent := none, states := states, effects := [] }
  rw [hfold]
  refine ⟨racc.triggered, racc.states, _, rfl, ?_, ?_⟩
  · intro q hq ⟨e, he, hpred⟩
    have hpair : (q.1, e) ∈ cameraEntityPairs env.cameras :=
      mem_cameraEntityPairs env.cameras q e hq he
    obtain ⟨st, hst, hsrc⟩ := hmark q.1 (Or.inl ⟨(q.1, e), hpair, rfl, hpred⟩)
    rw [mem_getTriggeredCameraIDs]
    exact ⟨(q.1, st), mapGet_mem _ _ _ hst, rfl, isStateTriggered_of_sources st hsrc⟩
  · have hre : racc.effects.filter isThrottledTriggerEffect = [] := by
      apply List.filter_eq_nil_iff.mpr
      intro a ha
      have hcz : racc.effects.countP isThrottledTriggerEffect = 0 := by
        rw [hcount]
        rfl
      have := List.countP_eq_zero.mp hcz a ha
      simpa using this
    rw [List.filter_append, hre, List.nil_append]
    rw [hstart]
    dsimp only
    unfold specFirstTriggeredEntity
    cases hfind : (cameraEntityPairs env.cameras).find?
        (fun p => env.isTriggeredState (env.hassState p.2)) with
    | none => rfl
    | some p => rfl

/-- A concrete collaborator snapshot used to exercise the theorems: triggers
configured with action `live`, untrigger action `default`, interaction mode
`all`, grace of 5 seconds, camera filtering off, `camera_1` selected. -/
def demoTriggersConfig : TriggersConfig :=
  { filter_selected_camera := false,
    untrigger_seconds := 5,
    actions := { interaction_mode := "all", trigger := "live",
                 untrigger := "default" } }

def demoEnv : Env :=
  { config := some { view_triggers := some demoTriggersConfig,
                     view_default := some "live" },
    selectedCameraID := some "camera_1",
    dependentCameras := fun _ => ["camera_1", "camera_2"],
    hasInteraction := false,
    cameras := [("camera_1", ["entity_1"]), ("camera_2", ["entity_2"])],
    hassState := fun _ => some "on",
    isTriggeredState := fun s => s == some "on" }

/-- A concrete collaborator snapshot with no card configuration at all. -/
def noConfigEnv : Env :=
  { config := none,
    selectedCameraID := none,
    dependentCameras := fun _ => [],
    hasInteraction := true,
    cameras := [("camera_1", ["entity_1"])],
    hassState := fun _ => some "on",
    isTriggeredState := fun s => s == some "on" }

/-- C1 (amended): in `handleCameraEvent` all store mutation is independent of
whether a downstream dispatch would throw (the dispatch attempt comes after
the mutation), and the reported triggered status stays consistent even when
the untrigger view call throws after the grace timer fires; however, in that
failure case the camera's state entry is NOT deleted — only its timer is
cleared, so the leftover entry (empty sources, no timer) is not reported
triggered; with a succeeding dispatch the entry is deleted. -/
theorem untrigger_state_mutation_vs_dispatch (env : Env) (now : Nat)
    (m : StatesMap) :
    (∀ ev sk, (ev.type == "end") = false →
      handleCameraEvent env now true m ev sk =
        handleCameraEvent env now false m ev sk) ∧
    (∀ k st d e0, nodupKeys m →
      mapGet m k = some st → st.sources = [] → st.untriggerDelayTimer = some d →
      executeUntriggerAction env true = .error e0 →
      fireUntriggerTimer env true m k =
        some (.error (mapSet m k { st with untriggerDelayTimer := none },
          [.timerStop k] ++ e0)) ∧
      k ∉ getTriggeredCameraIDs (mapSet m k { st with untriggerDelayTimer := none })) ∧
    (∀ k st d, mapGet m k = some st → st.untriggerDelayTimer = some d →
      ∃ effs, fireUntriggerTimer env false m k = some (.ok (mapDelete m k, effs))) := by
  refine ⟨?_, ?_, ?_⟩
  · intro ev sk hne
    rw [handleCameraEvent_not_end_eq env now true m ev sk hne,
      handleCameraEvent_not_end_eq env now false m ev sk hne]
  · intro k st d e0 hnd hget hsrcs ht hexec
    constructor
    · unfold fireUntriggerTimer
      rw [hget]
      rw [show ((some st).bind (fun s => s.untriggerDelayTimer)) =
        st.untriggerDelayTimer from rfl, ht]
      rw [untriggerAction_eq, hexec, deleteTimer_with_timer m k st d hget ht]
    · rw [mem_getTriggeredCameraIDs]
      rintro ⟨p, hp, hpk, htrig⟩
      rcases mapSet_mem_nodup m k _ hnd p hp with h1 | ⟨_, h2⟩
      · rw [h1] at htrig
        unfold isStateTriggered at htrig
        rw [show ({ st with untriggerDelayTimer := none } :
            CameraTriggerState).sources = st.sources from rfl, hsrcs] at htrig
        simp at htrig
      · exact h2 hpk
  · intro k st d hget ht
    unfold fireUntriggerTimer
    rw [hget]
    rw [show ((some st).bind (fun s => s.untriggerDelayTimer)) =
      st.untriggerDelayTimer from rfl, ht]
    obtain ⟨effs, hu⟩ := untriggerAction_false_ok env m k
    rw [hu]
    exact ⟨effs, rfl⟩

/-- C1 is refuted as stated: after the grace timer fires, when the untrigger
view call throws, the camera's state entry is NOT deleted — the store still
holds an entry for the camera once the exception propagates. -/
theorem untrigger_entry_kept_on_throw_cex :
    fireUntriggerTimer demoEnv true
        [("camera_1", ⟨0, [], some 5⟩)] "camera_1" =
      some (.error ([("camera_1", ⟨0, [], none⟩)],
        [.timerStop "camera_1", .setViewDefault])) ∧
    mapGet [("camera_1", (⟨0, [], none⟩ : CameraTriggerState))] "camera_1" =
      some ⟨0, [], none⟩ :=
  ⟨rfl, rfl⟩

theorem deleteTimer_noEntry (m : StatesMap) (k : String)
    (hnone : mapGet m k = none) :
    deleteUntriggerDelayTimer m k = (m, []) := by
  unfold deleteUntriggerDelayTimer
  rw [hnone]

theorem handleCameraEvent_end_noState (env : Env) (now : Nat) (vct : Bool)
    (m : StatesMap) (ev : CameraEvent) (sk : Bool)
    (he : (ev.type == "end") = true) (hnone : mapGet m ev.cameraID = none) :
    handleCameraEvent env now vct m ev sk = .ok (true, m, []) := by
  rw [handleCameraEvent_end_eq env now vct m ev sk he]
  have h1 : endUpdatedStates m ev = m := by
    unfold endUpdatedStates
    rw [hnone]
  rw [h1]
  rw [if_pos (by rw [hnone])]
  rw [startUntrigger_eq]
  rw [deleteTimer_noEntry m ev.cameraID hnone]
  dsimp only
  rw [hnone]

/-- C8 (amended): delivering the same `end` event a second time while a
grace timer is pending is not a no-op: with positive grace seconds the
pending timer is stopped and a fresh one is scheduled with the full grace
duration measured from the second delivery; the source set stays empty, the
camera stays triggered and no untrigger action is dispatched.  Only for a
camera with no stored state is a repeated `end` a true no-op on the
store. -/
theorem duplicate_end_restarts_grace_timer (env : Env) (now : Nat)
    (m : StatesMap) (k src : String) (sk : Bool) (st : CameraTriggerState)
    (d : Nat) (tc : TriggersConfig)
    (htc : env.triggersConfig = some tc) (hG : 0 < tc.untrigger_seconds)
    (hget : mapGet m k = some st) (hsrcs : st.sources = [])
    (ht : st.untriggerDelayTimer = some d) :
    (handleCameraEvent env now false m ⟨k, src, "end", none, none, none⟩ sk =
      .ok (true,
        mapSet m k { st with untriggerDelayTimer := some (now + tc.untrigger_seconds) },
        [.timerStop k, .timerStart k tc.untrigger_seconds]) ∧
     isStateTriggered
       { st with untriggerDelayTimer := some (now + tc.untrigger_seconds) } = true) ∧
    (∀ m2 : StatesMap, mapGet m2 k = none →
      handleCameraEvent env now false m2 ⟨k, src, "end", none, none, none⟩ sk =
        .ok (true, m2, [])) := by
  have hsecs : untriggerSecondsOf env = tc.untrigger_seconds := by
    simp [untriggerSecondsOf, htc]
  obtain ⟨lt, srcs, tm⟩ := st
  dsimp only at hsrcs ht
  subst hsrcs
  subst ht
  constructor
  · constructor
    · rw [handleCameraEvent_end_eq env now false m _ sk (by rfl)]
      have hend : endUpdatedStates m ⟨k, src, "end", none, none, none⟩ =
          mapSet m k ⟨lt, [], some d⟩ := by
        unfold endUpdatedStates
        rw [hget]
        rfl
      rw [hend]
      have hm1 : mapGet (mapSet m k ⟨lt, [], some d⟩) k = some ⟨lt, [], some d⟩ :=
        mapGet_mapSet_self m k _
      rw [if_pos (by rw [hm1]; rfl)]
      rw [startUntrigger_eq]
      rw [deleteTimer_with_timer (mapSet m k ⟨lt, [], some d⟩) k ⟨lt, [], some d⟩ d hm1 rfl]
      dsimp only
      rw [mapGet_mapSet_self]
      dsimp only
      rw [hsecs, if_pos hG]
      dsimp only
      rw [mapSet_mapSet, mapSet_mapSet]
      rfl
    · exact isStateTriggered_of_timer _ (now + tc.untrigger_seconds) rfl
  · intro m2 hnone
    exact handleCameraEvent_end_noState env now false m2 _ sk (by rfl) hnone

/-- C8 is refuted as stated: with a grace timer pending (deadline 6) a
second delivery of the same `end` event at time 3 changes the store — the
camera's timer deadline moves from 6 to 8 — and stops/schedules untrigger
timers rather than being a no-op. -/
theorem duplicate_end_noop_cex :
    handleCameraEvent demoEnv 3 false [("camera_1", ⟨0, [], some 6⟩)]
        ⟨"camera_1", "e1", "end", none, none, none⟩ false =
      .ok (true, [("camera_1", ⟨0, [], some 8⟩)],
        [.timerStop "camera_1", .timerStart "camera_1" 5]) ∧
    [("camera_1", (⟨0, [], some 8⟩ : CameraTriggerState))] ≠
      [("camera_1", ⟨0, [], some 6⟩)] ∧
    Effect.timerStart "camera_1" 5 ∈
      [Effect.timerStop "camera_1", Effect.timerStart "camera_1" 5] :=
  ⟨rfl, by decide, by decide⟩

/-- C7: with grace seconds G > 0, an accepted `new` event at time T, an
`end` of the camera's only source at T+1, and another accepted `new`
(different source) at T+1+d with d < G leave the camera continuously
triggered: the grace timer is started with deadline T+1+G, is cancelled at
T+1+d — strictly before that deadline — so it can no longer fire, its
untrigger action never executes (no view-manager call occurs in any of the
three traces) and the camera's state entry is never deleted. -/
theorem grace_timer_cancelled_on_retrigger (env : Env) (tc : TriggersConfig)
    (sel : String) (htc : env.triggersConfig = some tc)
    (hsel : env.selectedCameraID = some sel)
    (G T d : Nat) (hG : tc.untrigger_seconds = G) (hGpos : 0 < G) (hd : d < G)
    (cam src src2 : String) (m0 : StatesMap) (h0 : mapGet m0 cam = none)
    (hfil : (tc.filter_selected_camera &&
      !((env.dependentCameras sel).contains cam)) = false) :
    handleCameraEvent env T false m0 ⟨cam, src, "new", none, none, none⟩ false =
      .ok (true, mapSet m0 cam ⟨T, [src], none⟩,
        [setConditionStateEffect (mapSet m0 cam ⟨T, [src], none⟩),
         .throttledTrigger ⟨cam, src, "new", none, none, none⟩]) ∧
    cam ∈ getTriggeredCameraIDs (mapSet m0 cam ⟨T, [src], none⟩) ∧
    handleCameraEvent env (T+1) false (mapSet m0 cam ⟨T, [src], none⟩)
        ⟨cam, src, "end", none, none, none⟩ false =
      .ok (true, mapSet m0 cam ⟨T, [], some (T+1+G)⟩, [.timerStart cam G]) ∧
    cam ∈ getTriggeredCameraIDs (mapSet m0 cam ⟨T, [], some (T+1+G)⟩) ∧
    handleCameraEvent env (T+1+d) false (mapSet m0 cam ⟨T, [], some (T+1+G)⟩)
        ⟨cam, src2, "new", none, none, none⟩ false =
      .ok (true, mapSet m0 cam ⟨T+1+d, [src2], none⟩,
        [.timerStop cam,
         setConditionStateEffect (mapSet m0 cam ⟨T+1+d, [src2], none⟩),
         .throttledTrigger ⟨cam, src2, "new", none, none, none⟩]) ∧
    cam ∈ getTriggeredCameraIDs (mapSet m0 cam ⟨T+1+d, [src2], none⟩) ∧
    T+1+d < T+1+G ∧
    (∀ vct, fireUntriggerTimer env vct (mapSet m0 cam ⟨T+1+d, [src2], none⟩) cam = none) ∧
    (∀ eff ∈ [setConditionStateEffect (mapSet m0 cam ⟨T, [src], none⟩),
        Effect.throttledTrigger ⟨cam, src, "new", none, none, none⟩,
        Effect.timerStart cam G, Effect.timerStop cam,
        setConditionStateEffect (mapSet m0 cam ⟨T+1+d, [src2], none⟩),
        Effect.throttledTrigger ⟨cam, src2, "new", none, none, none⟩],
      isViewManagerCall eff = false) := by
  have hsecs : untriggerSecondsOf env = G := by
    simp [untriggerSecondsOf, htc, hG]
  have hmem : ∀ v : CameraTriggerState, isStateTriggered v = true →
      cam ∈ getTriggeredCameraIDs (mapSet m0 cam v) := by
    intro v hv
    rw [mem_getTriggeredCameraIDs]
    exact ⟨(cam, v), mapGet_mem _ _ _ (mapGet_mapSet_self m0 cam v), rfl, hv⟩
  refine ⟨?_, hmem _ rfl, ?_, hmem _ rfl, ?_, hmem _ rfl, by omega, ?_, ?_⟩
  · rw [handleCameraEvent_accepted_eq env T false m0
      ⟨cam, src, "new", none, none, none⟩ false tc sel (by rfl) htc hsel hfil]
    have hrs1 : refreshedState m0 T ⟨cam, src, "new", none, none, none⟩ =
        ⟨T, [src], none⟩ := by
      unfold refreshedState
      dsimp only
      rw [h0]
      rfl
    rw [hrs1]
    dsimp only
    rw [deleteTimer_no_timer (mapSet m0 cam ⟨T, [src], none⟩) cam ⟨T, [src], none⟩
      (mapGet_mapSet_self m0 cam _) rfl]
    rfl
  · rw [handleCameraEvent_end_eq env (T+1) false (mapSet m0 cam ⟨T, [src], none⟩)
      ⟨cam, src, "end", none, none, none⟩ false (by rfl)]
    have hend2 : endUpdatedStates (mapSet m0 cam ⟨T, [src], none⟩)
        ⟨cam, src, "end", none, none, none⟩ = mapSet m0 cam ⟨T, [], none⟩ := by
      unfold endUpdatedStates
      dsimp only
      rw [mapGet_mapSet_self]
      dsimp only
      rw [show setDelete [src] src = [] from by simp [setDelete]]
      rw [mapSet_mapSet]
    rw [hend2]
    rw [if_pos (by rw [mapGet_mapSet_self]; rfl)]
    rw [startUntrigger_eq]
    rw [deleteTimer_no_timer (mapSet m0 cam ⟨T, [], none⟩) cam ⟨T, [], none⟩
      (mapGet_mapSet_self m0 cam _) rfl]
    dsimp only
    rw [mapGet_mapSet_self]
    dsimp only
    rw [hsecs, if_pos hGpos]
    dsimp only
    rw [mapSet_mapSet]
    rfl
  · rw [handleCameraEvent_accepted_eq env (T+1+d) false
      (mapSet m0 cam ⟨T, [], some (T+1+G)⟩)
      ⟨cam, src2, "new", none, none, none⟩ false tc sel (by rfl) htc hsel hfil]
    have hrs3 : refreshedState (mapSet m0 cam ⟨T, [], some (T+1+G)⟩) (T+1+d)
        ⟨cam, src2, "new", none, none, none⟩ = ⟨T+1+d, [src2], some (T+1+G)⟩ := by
      unfold refreshedState
      dsimp only
      rw [mapGet_mapSet_self]
      rfl
    rw [hrs3]
    dsimp only
    rw [mapSet_mapSet]
    rw [deleteTimer_with_timer (mapSet m0 cam ⟨T+1+d, [src2], some (T+1+G)⟩) cam
      ⟨T+1+d, [src2], some (T+1+G)⟩ (T+1+G) (mapGet_mapSet_self m0 cam _) rfl]
    dsimp only
    rw [mapSet_mapSet]
    rfl
  · intro vct
    unfold fireUntriggerTimer
    rw [mapGet_mapSet_self]
    rfl
  · intro eff heff
    fin_cases heff <;> rfl

theorem throttle_window_fold (W t0 : Nat) (rest : List (Nat × CameraEvent))
    (hwin : ∀ c ∈ rest, t0 ≤ c.1 ∧ c.1 < t0 + W)
    (lc : Nat) (hlc : t0 ≤ lc) (args0 : Option CameraEvent)
    (out : List CameraEvent) :
    ∃ lc', t0 ≤ lc' ∧
      rest.foldl (fun acc c =>
          ((throttledCall W acc.1 c.1 c.2).1,
            acc.2 ++ (throttledCall W acc.1 c.1 c.2).2.toList))
        ({ lastCallTime := some lc, lastInvokeTime := t0,
           timerDeadline := some (t0 + W), lastArgs := args0 }, out) =
      ({ lastCallTime := some lc', lastInvokeTime := t0,
         timerDeadline := some (t0 + W),
         lastArgs := (match rest.getLast? with
           | none => args0
           | some c => some c.2) }, out) := by
  induction rest generalizing lc args0 with
  | nil => exact ⟨lc, hlc, rfl⟩
  | cons c cs ih =>
    obtain ⟨hc1, hc2⟩ := hwin c (List.mem_cons_self _ _)
    have hwin' : ∀ q ∈ cs, t0 ≤ q.1 ∧ q.1 < t0 + W :=
      fun q hq => hwin q (List.mem_cons_of_mem _ hq)
    have hsi : shouldInvoke W
        { lastCallTime := some lc, lastInvokeTime := t0,
          timerDeadline := some (t0 + W), lastArgs := args0 } c.1 = false := by
      unfold shouldInvoke
      dsimp only
      have h1 : ¬(lc + W ≤ c.1) := by omega
      have h2 : ¬(t0 + W ≤ c.1) := by omega
      simp [h1, h2]
    have hcall : throttledCall W
        { lastCallTime := some lc, lastInvokeTime := t0,
          timerDeadline := some (t0 + W), lastArgs := args0 } c.1 c.2 =
        ({ lastCallTime := some c.1, lastInvokeTime := t0,
           timerDeadline := some (t0 + W), lastArgs := some c.2 }, none) := by
      unfold throttledCall
      rw [hsi]
      simp
    obtain ⟨lc', hlc', hfold⟩ := ih hwin' c.1 hc1 (some c.2)
    refine ⟨lc', hlc', ?_⟩
    rw [List.foldl_cons, hcall]
    rw [show out ++ ((({ lastCallTime := some c.1, lastInvokeTime := t0,
                         timerDeadline := some (t0 + W),
                         lastArgs := some c.2 } : ThrottleState),
        (none : Option CameraEvent))).2.toList = out from List.append_nil out]
    cases cs with
    | nil => exact hfold
    | cons q qs => exact hfold

theorem runThrottleBurst_eq (W : Nat) (calls : List (Nat × CameraEvent)) :
    runThrottleBurst W calls =
      (match (calls.foldl (fun acc c =>
          ((throttledCall W acc.1 c.1 c.2).1,
            acc.2 ++ (throttledCall W acc.1 c.1 c.2).2.toList))
          (freshThrottle, [])).1.timerDeadline with
       | some deadline =>
         (calls.foldl (fun acc c =>
            ((throttledCall W acc.1 c.1 c.2).1,
              acc.2 ++ (throttledCall W acc.1 c.1 c.2).2.toList))
            (freshThrottle, [])).2 ++
           (throttleTimerExpired W (calls.foldl (fun acc c =>
              ((throttledCall W acc.1 c.1 c.2).1,
                acc.2 ++ (throttledCall W acc.1 c.1 c.2).2.toList))
              (freshThrottle, [])).1 deadline).2.toList
       | none =>
         (calls.foldl (fun acc c =>
            ((throttledCall W acc.1 c.1 c.2).1,
              acc.2 ++ (throttledCall W acc.1 c.1 c.2).2.toList))
            (freshThrottle, [])).2) := rfl

/-- C3 (amended): the dispatch throttle (lodash `throttle` with a 1000 ms
window, `trailing: true` and `leading` left at its default of `true`, per
coordinator instance) fires on BOTH edges: for a burst of calls within one
window starting from a fresh wrapper, the first call's payload is dispatched
immediately on the leading edge, and — only when further calls arrived in
the window — exactly one more dispatch occurs when the window's timer
expires, carrying the last call's payload; a single call produces exactly
one dispatch. -/
theorem trigger_throttle_leading_and_trailing (t0 : Nat) (a0 : CameraEvent)
    (rest : List (Nat × CameraEvent))
    (hwin : ∀ c ∈ rest, t0 ≤ c.1 ∧ c.1 < t0 + triggerThrottleWait) :
    runThrottleBurst triggerThrottleWait ((t0, a0) :: rest) =
      (match rest.getLast? with
       | none => [a0]
       | some c => [a0, c.2]) := by
  rw [runThrottleBurst_eq]
  have hfirst : throttledCall triggerThrottleWait freshThrottle t0 a0 =
      ({ lastCallTime := some t0, lastInvokeTime := t0,
         timerDeadline := some (t0 + triggerThrottleWait), lastArgs := none },
       some a0) := by
    unfold throttledCall freshThrottle shouldInvoke
    simp
  rw [List.foldl_cons, hfirst]
  obtain ⟨lc', hlc', hfold⟩ := throttle_window_fold triggerThrottleWait t0 rest hwin
    t0 (Nat.le_refl t0) none ([] ++ [a0])
  have hfold2 : List.foldl (fun acc c =>
      ((throttledCall triggerThrottleWait acc.1 c.1 c.2).1,
        acc.2 ++ (throttledCall triggerThrottleWait acc.1 c.1 c.2).2.toList))
      (((({ lastCallTime := some t0, lastInvokeTime := t0,
            timerDeadline := some (t0 + triggerThrottleWait),
            lastArgs := none } : ThrottleState),
        (some a0 : Option CameraEvent))).1,
        ([] : List CameraEvent) ++
          (((({ lastCallTime := some t0, lastInvokeTime := t0,
                timerDeadline := some (t0 + triggerThrottleWait),
                lastArgs := none } : ThrottleState),
            (some a0 : Option CameraEvent)))).2.toList) rest =
      ({ lastCallTime := some lc', lastInvokeTime := t0,
         timerDeadline := some (t0 + triggerThrottleWait),
         lastArgs := (match rest.getLast? with
           | none => none
           | some c => some c.2) }, [] ++ [a0]) := hfold
  rw [hfold2]
  dsimp only
  have hexp : shouldInvoke triggerThrottleWait
      { lastCallTime := some lc', lastInvokeTime := t0,
        timerDeadline := some (t0 + triggerThrottleWait),
        lastArgs := (match rest.getLast? with
          | none => (none : Option CameraEvent)
          | some c => some c.2) } (t0 + triggerThrottleWait) = true := by
    unfold shouldInvoke
    dsimp only
    have h2 : t0 + triggerThrottleWait ≤ t0 + triggerThrottleWait := Nat.le_refl _
    simp [h2]
  unfold throttleTimerExpired
  rw [hexp, if_pos rfl]
  cases hlast : rest.getLast? with
  | none => rfl
  | some c => rfl

/-- C3 is refuted as stated: two accepted events 1 ms apart (within one
1-second window) produce TWO dispatches — one immediately on the leading
edge with the first event's payload and one at the window's end with the
last event's payload — not exactly one trailing-edge dispatch. -/
theorem trigger_throttle_trailing_only_cex :
    runThrottleBurst triggerThrottleWait
        [(0, ⟨"camera_1", "e1", "new", none, none, none⟩),
         (1, ⟨"camera_2", "e2", "new", none, none, none⟩)] =
      [⟨"camera_1", "e1", "new", none, none, none⟩,
       ⟨"camera_2", "e2", "new", none, none, none⟩] ∧
    ([(⟨"camera_1", "e1", "new", none, none, none⟩ : CameraEvent),
      ⟨"camera_2", "e2", "new", none, none, none⟩].length ≠ 1) :=
  ⟨rfl, by decide⟩

/-! Witnesses: the claim theorems applied at concrete inputs. -/

/-- Witness for C4 at concrete inputs: a `new` event with no configuration
is rejected without mutation, and an `end` event for an unknown camera is
accepted as a no-op. -/
theorem handleCameraEvent_filtering_rules_witness :
    handleCameraEvent noConfigEnv 0 false []
        ⟨"camera_1", "e1", "new", none, none, none⟩ false = .ok (false, [], []) ∧
    handleCameraEvent demoEnv 0 false []
        ⟨"camera_1", "e1", "end", none, none, none⟩ false = .ok (true, [], []) :=
  ⟨(handleCameraEvent_filtering_rules noConfigEnv 0 []
      ⟨"camera_1", "e1", "new", none, none, none⟩ false).1 (by decide) (Or.inl rfl),
   (handleCameraEvent_filtering_rules demoEnv 0 []
      ⟨"camera_1", "e1", "end", none, none, none⟩ false).2.2.2 rfl rfl⟩

/-- Witness for C2 at a concrete input: the store invariant is preserved by
an accepted `new` event for a second camera. -/
theorem trigger_store_invariant_witness :
    nodupKeys [("camera_1", ⟨0, ["e1"], none⟩),
      ("camera_2", (⟨1, ["e2"], none⟩ : CameraTriggerState))] ∧
    storeInv [("camera_1", ⟨0, ["e1"], none⟩),
      ("camera_2", (⟨1, ["e2"], none⟩ : CameraTriggerState))] :=
  (trigger_store_invariant demoEnv 1 [("camera_1", ⟨0, ["e1"], none⟩)]
      (by unfold nodupKeys; decide) (by unfold storeInv; decide)).1
    ⟨"camera_2", "e2", "new", none, none, none⟩ false true
    [("camera_1", ⟨0, ["e1"], none⟩), ("camera_2", ⟨1, ["e2"], none⟩)]
    [Effect.setConditionState (some ["camera_1", "camera_2"]),
     Effect.throttledTrigger ⟨"camera_2", "e2", "new", none, none, none⟩] rfl

/-- Witness for C9 at a concrete input. -/
theorem absent_config_blocks_actions_witness :
    hasAllowableInteractionStateForAction noConfigEnv = false ∧
    (triggerAction noConfigEnv
      ⟨"camera_1", "e1", "new", none, none, none⟩).filter isViewManagerCall = [] ∧
    executeUntriggerAction noConfigEnv true = .ok [] :=
  ⟨(absent_config_blocks_actions noConfigEnv rfl).1,
   (absent_config_blocks_actions noConfigEnv rfl).2.1
     ⟨"camera_1", "e1", "new", none, none, none⟩,
   (absent_config_blocks_actions noConfigEnv rfl).2.2 true⟩

/-- Witness for C6 at a concrete input: a high-fidelity event without media
still dispatches a live-view navigation under trigger action `live`. -/
theorem high_fidelity_suppression_witness :
    triggerAction demoEnv ⟨"camera_1", "e1", "new", some "high", none, some false⟩ =
      [.setViewLive "camera_1", .cardUpdate] :=
  (high_fidelity_suppression demoEnv
      ⟨"camera_1", "e1", "new", some "high", none, some false⟩ rfl rfl rfl).2.2
    demoTriggersConfig rfl rfl rfl

/-- Witness for C10 at a concrete input: with no configuration and a
triggered entity, the startup scan returns `true` with an unchanged store
and no dispatch. -/
theorem handleInitialCameraTriggers_return_value_witness :
    handleInitialCameraTriggers noConfigEnv 0 [] = .ok (true, [], []) := by
  obtain ⟨m', effs, heq, himp⟩ :=
    handleInitialCameraTriggers_return_value noConfigEnv 0 []
  obtain ⟨hm, he⟩ := himp rfl
  rw [heq, hm, he]
  rfl

/-- Witness for C5 at a concrete input: the startup scan completes under an
accepting environment. -/
theorem handleInitialCameraTriggers_single_dispatch_witness :
    (handleInitialCameraTriggers demoEnv 0 []).toOption.isSome = true := by
  obtain ⟨b, m', effs, heq, _, _⟩ :=
    handleInitialCameraTriggers_single_dispatch demoEnv 0 []
      demoTriggersConfig "camera_1" rfl rfl (fun p hp => rfl)
  rw [heq]
  rfl

/-- Witness for C1 at concrete inputs: a `new` event's mutation is
independent of dispatch failure, the tombstone left by a throwing untrigger
is not reported triggered, and a succeeding timer fire completes. -/
theorem untrigger_state_mutation_vs_dispatch_witness :
    (handleCameraEvent demoEnv 0 true []
        ⟨"camera_1", "e1", "new", none, none, none⟩ false =
      handleCameraEvent demoEnv 0 false []
        ⟨"camera_1", "e1", "new", none, none, none⟩ false) ∧
    "camera_1" ∉ getTriggeredCameraIDs
      (mapSet [("camera_1", ⟨0, [], some 5⟩)] "camera_1" ⟨0, [], none⟩) ∧
    (fireUntriggerTimer demoEnv false
      [("camera_1", (⟨0, [], some 5⟩ : CameraTriggerState))] "camera_1").isSome = true := by
  refine ⟨?_, ?_, ?_⟩
  · exact (untrigger_state_mutation_vs_dispatch demoEnv 0 []).1
      ⟨"camera_1", "e1", "new", none, none, none⟩ false (by decide)
  · exact ((untrigger_state_mutation_vs_dispatch demoEnv 0
      [("camera_1", ⟨0, [], some 5⟩)]).2.1 "camera_1" ⟨0, [], some 5⟩ 5
      [Effect.setViewDefault] (by unfold nodupKeys; decide) rfl rfl rfl rfl).2
  · obtain ⟨effs, hf⟩ := (untrigger_state_mutation_vs_dispatch demoEnv 0
      [("camera_1", ⟨0, [], some 5⟩)]).2.2 "camera_1" ⟨0, [], some 5⟩ 5 rfl rfl
    rw [hf]
    rfl

/-- Witness for C8 at a concrete input: a duplicate `end` at time 3 restarts
the grace timer with deadline 3 + 5. -/
theorem duplicate_end_restarts_grace_timer_witness :
    handleCameraEvent demoEnv 3 false [("camera_1", ⟨0, [], some 6⟩)]
        ⟨"camera_1", "e1", "end", none, none, none⟩ false =
      .ok (true, mapSet [("camera_1", ⟨0, [], some 6⟩)] "camera_1" ⟨0, [], some (3 + 5)⟩,
        [.timerStop "camera_1", .timerStart "camera_1" 5]) :=
  (duplicate_end_restarts_grace_timer demoEnv 3 [("camera_1", ⟨0, [], some 6⟩)]
      "camera_1" "e1" false ⟨0, [], some 6⟩ 6 demoTriggersConfig rfl (by decide)
      rfl rfl rfl).1.1

/-- Witness for C7 at concrete inputs: after the retriggering `new` event at
time 2, no untrigger timer is left to fire for the camera. -/
theorem grace_timer_cancelled_on_retrigger_witness :
    fireUntriggerTimer demoEnv false
      (mapSet [] "camera_1" ⟨2, ["s2"], none⟩) "camera_1" = none :=
  (grace_timer_cancelled_on_retrigger demoEnv demoTriggersConfig "camera_1"
      rfl rfl 5 0 1 rfl (by decide) (by decide) "camera_1" "s1" "s2" [] rfl
      rfl).2.2.2.2.2.2.2.1 false

/-- Witness for C3 at a concrete input: a two-call burst dispatches the
first payload at the leading edge and the second at the trailing edge. -/
theorem trigger_throttle_leading_and_trailing_witness :
    runThrottleBurst triggerThrottleWait
        [(5, ⟨"camera_1", "s1", "update", none, none, none⟩),
         (7, ⟨"camera_2", "s2", "update", none, none, none⟩)] =
      [⟨"camera_1", "s1", "update", none, none, none⟩,
       ⟨"camera_2", "s2", "update", none, none, none⟩] :=
  trigger_throttle_leading_and_trailing 5
    ⟨"camera_1", "s1", "update", none, none, none⟩
    [(7, ⟨"camera_2", "s2", "update", none, none, none⟩)] (by decide)
